import Mathlib

/-!
Verification of the flow-builder workflow execution engine.

The definitions below are a shallow embedding of the execution engine in
`src/server/src/index.ts` (the canonical, cycle-tolerant coordinator) and of
the single-node endpoint in `src/app/api/execute/route.ts`.  Scripts are
arbitrary JavaScript, so script behaviour is supplied by an oracle; all
engine-side logic (caps, traversal, storage writes, history records, the
JSON round-trip) is translated directly from the source.

The re-fetch performed before each node (`getStorageData`) is modelled as
reading the run's current storage: no collaborator mutates the store during
a run except the caller-side executor, which is reached only through the
dispatch oracle of the caller-mode path.
-/

/-! ## Generic list and association-list lemmas -/

/-! ## Component frame lemmas for the storage operations -/

/-- JSON values, as produced by `JSON.parse`.  Numbers are modelled as
integers (the claims do not depend on numeric edge cases). -/
inductive Json where
  | null : Json
  | bool (b : Bool) : Json
  | num (n : Int) : Json
  | str (s : String) : Json
  | arr (xs : List Json) : Json
  | obj (fields : List (String × Json)) : Json

/-- JavaScript runtime values that a node script may return, as far as the
JSON round-trip distinguishes them: `undef` is `undefined`, `func` stands for
any function value; the rest mirror `Json`. -/
inductive JSValue where
  | undef : JSValue
  | null : JSValue
  | bool (b : Bool) : JSValue
  | num (n : Int) : JSValue
  | str (s : String) : JSValue
  | func : JSValue
  | arr (xs : List JSValue) : JSValue
  | obj (fields : List (String × JSValue)) : JSValue

/-- Test for the JSON `null` value (model of `x === null`). -/
def Json.isNull : Json → Bool
  | .null => true
  | _ => false

mutual

/-- The value of `JSON.parse(JSON.stringify(v))` when `JSON.stringify v` is
defined, `none` when `JSON.stringify` returns `undefined` (top-level
`undefined` or function).  Inside arrays such values become `null`; inside
objects the field is omitted — the lossy round-trip described in §4.2 of the
spec and performed by the engine. -/
def jsonStringify : JSValue → Option Json
  | .undef => none
  | .func => none
  | .null => some .null
  | .bool b => some (.bool b)
  | .num n => some (.num n)
  | .str s => some (.str s)
  | .arr xs => some (.arr (stringifyElems xs))
  | .obj fs => some (.obj (stringifyFields fs))

/-- Array elements whose serialization is `undefined` become `null`. -/
def stringifyElems : List JSValue → List Json
  | [] => []
  | x :: rest => (jsonStringify x).getD .null :: stringifyElems rest

/-- Object fields whose value serializes to `undefined` are omitted. -/
def stringifyFields : List (String × JSValue) → List (String × Json)
  | [] => []
  | (k, v) :: rest =>
    match jsonStringify v with
    | some j => (k, j) :: stringifyFields rest
    | none => stringifyFields rest

end

/-- Model of `result !== undefined ? JSON.parse(JSON.stringify(result)) : undefined`
(server flow path, inside the `try`): returns `.ok none` for `undefined`,
`.ok (some j)` for a serializable value, and `.error` when `JSON.stringify`
yields `undefined` (then `JSON.parse(undefined)` throws a `SyntaxError`). -/
def serializeResult (v : JSValue) : Except String (Option Json) :=
  match v with
  | .undef => .ok none
  | v =>
    match jsonStringify v with
    | some j => .ok (some j)
    | none => .error "Unexpected token u in JSON at position 0"

/-- Outcome of one invocation of a node script (`executeNodeCode`): the
script either returns a JS value or throws, with the thrown value already
normalized to a string message as in the source. -/
inductive ScriptOutcome where
  | ret (v : JSValue) : ScriptOutcome
  | thr (msg : String) : ScriptOutcome

/-- Execution mode of a node (`executionMode?: "server" | "client"`). -/
inductive ExecMode where
  | server : ExecMode
  | client : ExecMode
deriving DecidableEq

/-- `LiveNodeData` from `src/server/src/index.ts`. -/
structure LiveNodeData where
  label : String
  code : String
  executionMode : Option ExecMode := none
  lastResult : Option Json := none
  isExecuting : Option Bool := none
  error : Option String := none
  pendingClientExecution : Option Bool := none
  clientInput : Option Json := none

/-- `LiveNode` from the source; `position` and `type` are opaque to the
engine but kept for fidelity. -/
structure LiveNode where
  id : String
  posX : Int := 0
  posY : Int := 0
  data : LiveNodeData
  type : String := "codeNode"

/-- `LiveEdge` from the source. -/
structure LiveEdge where
  id : String
  source : String
  target : String
deriving DecidableEq

/-- `ExecutionResult` (a `NodeExecutionResult` entry of a run's results
list). -/
structure ExecutionResult where
  nodeId : String
  nodeLabel : String
  result : Option Json := none
  error : Option String := none

/-- Status of an `ExecutionRecord`. -/
inductive RunStatus where
  | running : RunStatus
  | success : RunStatus
  | error : RunStatus
deriving DecidableEq

/-- `ExecutionRecord` from the source.  Timestamps are opaque strings. -/
structure ExecutionRecord where
  id : String
  startNodeId : String
  startNodeLabel : String
  startedAt : String
  completedAt : Option String := none
  status : RunStatus
  nodesExecuted : Nat
  results : List ExecutionResult

/-- Association-list lookup (first match), modelling `Map.get`. -/
def assocLookup {α : Type} : List (String × α) → String → Option α
  | [], _ => none
  | (k, v) :: rest, key => if k = key then some v else assocLookup rest key

/-- Association-list update, modelling `Map.set`: replaces the first binding
of the key in place, or appends a new binding. -/
def assocSet {α : Type} : List (String × α) → String → α → List (String × α)
  | [], key, v => [(key, v)]
  | (k, w) :: rest, key, v =>
    if k = key then (k, v) :: rest else (k, w) :: assocSet rest key v

/-- The Liveblocks room storage: keyed node map, ordered edge list, ordered
execution-history list. -/
structure Storage where
  nodes : List (String × LiveNode)
  edges : List LiveEdge
  history : List ExecutionRecord

/-- A `Partial<LiveNodeData>` updates object as passed to
`updateNodeInStorage`.  For `error` and `clientInput` the source
distinguishes a key that is present with value `undefined` (the field is
deleted) from an absent key (the field is kept), hence the nested option:
`none` = key absent, `some none` = present and `undefined`,
`some (some x)` = present with a value. -/
structure NodeUpdates where
  isExecuting : Option Bool := none
  lastResult : Option Json := none
  error : Option (Option String) := none
  pendingClientExecution : Option Bool := none
  clientInput : Option (Option Json) := none

/-- Field-merge logic of `updateNodeInStorage` (lines 126-146 of
`src/server/src/index.ts`): each update field is applied only when its value
is not `undefined`; `error` and `clientInput` are deleted when present with
value `undefined`; `lastResult`, `isExecuting` and `pendingClientExecution`
have no delete branch. -/
def applyNodeUpdates (u : NodeUpdates) (d : LiveNodeData) : LiveNodeData :=
  { d with
    isExecuting := match u.isExecuting with
      | some b => some b
      | none => d.isExecuting
    lastResult := match u.lastResult with
      | some j => some j
      | none => d.lastResult
    error := match u.error with
      | some (some e) => some e
      | some none => none
      | none => d.error
    pendingClientExecution := match u.pendingClientExecution with
      | some b => some b
      | none => d.pendingClientExecution
    clientInput := match u.clientInput with
      | some (some j) => some j
      | some none => none
      | none => d.clientInput }

/-- `updateNodeInStorage` (src/server/src/index.ts lines 114-158): looks the
node up, merges the update fields into its data, and writes it back; a
missing node is a no-op.  (The surrounding try/catch swallows store
failures; the model assumes the store write applies.) -/
def updateNodeInStorage (st : Storage) (nodeId : String) (u : NodeUpdates) : Storage :=
  match assocLookup st.nodes nodeId with
  | none => st
  | some node =>
    { st with nodes := assocSet st.nodes nodeId { node with data := applyNodeUpdates u node.data } }

/-- `addExecutionRecord`: insert at the head of the history list and trim to
the 50 most recent entries. -/
def addExecutionRecord (st : Storage) (record : ExecutionRecord) : Storage :=
  { st with history := (record :: st.history).take 50 }

/-- A `Partial<ExecutionRecord>` as passed to `updateExecutionRecord`;
`none` = key absent. -/
structure RecordUpdates where
  completedAt : Option String := none
  status : Option RunStatus := none
  nodesExecuted : Option Nat := none
  results : Option (List ExecutionResult) := none

/-- The spread merge of a record with an updates object. -/
def mergeRecord (r : ExecutionRecord) (u : RecordUpdates) : ExecutionRecord :=
  { r with
    completedAt := match u.completedAt with
      | some c => some c
      | none => r.completedAt
    status := match u.status with
      | some s => s
      | none => r.status
    nodesExecuted := match u.nodesExecuted with
      | some n => n
      | none => r.nodesExecuted
    results := match u.results with
      | some rs => rs
      | none => r.results }

/-- `updateExecutionRecord`: find the first record with the given id and
replace it with the merged record (the loop breaks after the first hit). -/
def setRecord : List ExecutionRecord → String → RecordUpdates → List ExecutionRecord
  | [], _, _ => []
  | r :: rest, recordId, u =>
    if r.id = recordId then mergeRecord r u :: rest else r :: setRecord rest recordId u

/-- Find the first execution record with the given id. -/
def findRec : List ExecutionRecord → String → Option ExecutionRecord
  | [], _ => none
  | r :: rest, recordId => if r.id = recordId then some r else findRec rest recordId

/-- `edges.filter(e => e.source === nodeId).map(e => e.target)` — the graph
model's ordered children list. -/
def childIds (edges : List LiveEdge) (nodeId : String) : List String :=
  (edges.filter (fun e => e.source = nodeId)).map (fun e => e.target)

/-- Outcome of one caller-mode (client-mode) dispatch, as observed by the
polling loop: either the pending marker is never cleared within the wait
window (`timeout`), or the caller's process completes the script with the
given outcome and writes the result back (`finished`). -/
inductive ClientOutcome where
  | timeout : ClientOutcome
  | finished (out : ScriptOutcome) : ClientOutcome

/-- Behaviour of the world outside the engine during one run: the `k`-th
script invocation of `executeNodeCode code input` (indexed by the run's
tick counter) and the `k`-th caller-mode dispatch outcome. -/
structure Oracle where
  script : Nat → String → Option Json → ScriptOutcome
  client : Nat → ClientOutcome

/-- Per-run fixed context: the oracle and the values of the impure
expressions `exec-${Date.now()}` and the two `new Date().toISOString()`
timestamps. -/
structure Env where
  oracle : Oracle
  execId : String
  startedAt : String
  finishedAt : String

/-- The `{ result?, error? }` object produced for one node execution. -/
structure NodeRes where
  result : Option Json := none
  error : Option String := none

/-- The try/catch plus JSON round-trip around `executeNodeCode`
(src/server/src/index.ts lines 400-409): on return the value is serialized
(a serialization failure is caught by the same catch), on throw the message
is recorded. -/
def runScript (out : ScriptOutcome) : NodeRes :=
  match out with
  | .ret v =>
    match serializeResult v with
    | .ok r => { result := r }
    | .error m => { error := some m }
  | .thr m => { error := some m }

/-- The timeout error message synthesized by the dispatcher
(src/server/src/index.ts line 382). -/
def clientTimeoutMsg : String :=
  "Client execution timeout - no browser connected or execution took too long"

/-- `maxWaitTime` of the polling loop (milliseconds). -/
def maxWaitTime : Nat := 60000

/-- `pollInterval` of the polling loop (milliseconds). -/
def pollInterval : Nat := 500

/-- `MAX_EXECUTIONS_PER_NODE` (src/server/src/index.ts line 320). -/
def MAX_EXECUTIONS_PER_NODE : Nat := 10

/-- `MAX_TOTAL_EXECUTIONS` (src/server/src/index.ts line 322). -/
def MAX_TOTAL_EXECUTIONS : Nat := 100

/-- Modelled from the spec: the caller-side completion of a pending
caller-mode task is not part of `src/` (only the dispatcher that waits for
it is).  Per §4.5 the external collaborator invokes an equivalent Sandbox
Executor locally and writes back `lastResult`/`error` plus clearing the
pending marker; the write-back therefore carries the result of the same
try/catch-plus-round-trip discipline (`runScript`), overwriting both
fields. -/
def clientCompletionWrite (st : Storage) (nodeId : String) (out : ScriptOutcome) : Storage :=
  match assocLookup st.nodes nodeId with
  | none => st
  | some node =>
    let nr := runScript out
    let node2 := { node with data :=
      { node.data with
        lastResult := nr.result
        error := nr.error
        pendingClientExecution := some false } }
    { st with nodes := assocSet st.nodes nodeId node2 }

/-- `executionCount.get(nodeId) || 0`. -/
def countOf (m : List (String × Nat)) (nodeId : String) : Nat :=
  (assocLookup m nodeId).getD 0

/-- Mutable state of one run of the flow-execution endpoint: the shared
storage, the two execution counters, the accumulated results list, the
error flag, and the tick indexing oracle consultations. -/
structure RunState where
  storage : Storage
  executionCount : List (String × Nat)
  totalExecutions : Nat
  results : List ExecutionResult
  hasError : Bool
  tick : Nat

/-- Counter bump performed after both cap guards pass
(`executionCount.set(nodeId, n+1); totalExecutions++`). -/
def bumpCounters (s : RunState) (nodeId : String) : RunState :=
  { s with
    executionCount := assocSet s.executionCount nodeId (countOf s.executionCount nodeId + 1)
    totalExecutions := s.totalExecutions + 1 }

/-- The server-mode execution block (src/server/src/index.ts lines 391-416):
pre-write `isExecuting=true, error: undefined`, run the script, post-write
`isExecuting=false, lastResult, error`.  Returns the node result and the
storage after both writes. -/
def serverModeStep (env : Env) (node : LiveNode) (nodeId : String) (input : Option Json)
    (st : Storage) (tick : Nat) : NodeRes × Storage :=
  let st2 := updateNodeInStorage st nodeId { isExecuting := some true, error := some none }
  let nr := runScript (env.oracle.script tick node.data.code input)
  let st3 := updateNodeInStorage st2 nodeId
    { isExecuting := some false, lastResult := nr.result, error := some nr.error }
  (nr, st3)

/-- The client-mode execution block (src/server/src/index.ts lines 348-390):
write the pending marker (`isExecuting=true, error: undefined,
pendingClientExecution=true, clientInput = round-tripped input or null`),
then poll; on completion read `lastResult`/`error` back from the settled
node, on timeout synthesize the timeout error and write the final state. -/
def clientModeStep (env : Env) (nodeId : String) (input : Option Json)
    (st : Storage) (tick : Nat) : NodeRes × Storage :=
  let st2 := updateNodeInStorage st nodeId
    { isExecuting := some true, error := some none,
      pendingClientExecution := some true, clientInput := some (some (input.getD .null)) }
  match env.oracle.client tick with
  | .timeout =>
    let nr : NodeRes := { error := some clientTimeoutMsg }
    (nr, updateNodeInStorage st2 nodeId
      { isExecuting := some false, pendingClientExecution := some false,
        error := some (some clientTimeoutMsg) })
  | .finished out =>
    let st3 := clientCompletionWrite st2 nodeId out
    let nr : NodeRes :=
      match assocLookup st3.nodes nodeId with
      | some n2 => { result := n2.data.lastResult, error := n2.data.error }
      | none => {}
    (nr, st3)

/-- `updateExecutionRecord(roomId, executionId, { nodesExecuted, results })`
performed after a successful node execution. -/
def recordProgress (st : Storage) (execId : String) (results : List ExecutionResult) : Storage :=
  let u : RecordUpdates := { nodesExecuted := some results.length, results := some results }
  { st with history := setRecord st.history execId u }

/-- Mode dispatch: the client-mode block for `executionMode === "client"`,
the server-mode block otherwise (line 348). -/
def nodeStep (env : Env) (node : LiveNode) (nodeId : String) (input : Option Json)
    (st : Storage) (tick : Nat) : NodeRes × Storage :=
  if node.data.executionMode.getD .server = .client then
    clientModeStep env nodeId input st tick
  else
    serverModeStep env node nodeId input st tick

/-- The per-node part of `executeNodeAndChildren` after the cap guards and
counter bump (src/server/src/index.ts lines 341-443 minus the recursion):
mode dispatch, results append, error stop, record progress update.  Returns
the state reached just before the children loop, together with the value to
propagate to children (`some j` exactly when the node produced no error and
a defined, non-null result — the condition of line 439). -/
def execNodeCore (env : Env) (node : LiveNode) (nodeId : String) (input : Option Json)
    (s1 : RunState) : RunState × Option Json :=
  let step := nodeStep env node nodeId input s1.storage s1.tick
  let nr := step.1
  let s2 := { s1 with
    storage := step.2
    tick := s1.tick + 1
    results := s1.results ++ [({ nodeId := nodeId, nodeLabel := node.data.label,
                                 result := nr.result, error := nr.error } : ExecutionResult)] }
  match nr.error with
  | some _ => ({ s2 with hasError := true }, none)
  | none =>
    let s3 := { s2 with storage := recordProgress s2.storage env.execId s2.results }
    match nr.result with
    | none => (s3, none)
    | some j => (s3, if j.isNull then none else some j)

/-- `executeNodeAndChildren` (src/server/src/index.ts lines 324-444),
indexed by fuel consumed once per recursion level; `execFuel` fuel is always
sufficient (proved below), so the `0` case is never reached from a run's
initial state.  The body is a direct translation: cap guards, counter bump,
node re-fetch, the per-node core, and sequential recursion into the node's
children when the core says the result propagates. -/
def executeNodeAndChildren (env : Env) : Nat → String → Option Json → RunState → RunState
  | 0, _, _, s => s
  | fuel + 1, nodeId, input, s =>
    if s.totalExecutions ≥ MAX_TOTAL_EXECUTIONS then s
    else if countOf s.executionCount nodeId ≥ MAX_EXECUTIONS_PER_NODE then s
    else
      let s1 := bumpCounters s nodeId
      match assocLookup s1.storage.nodes nodeId with
      | none => s1
      | some node =>
        let core := execNodeCore env node nodeId input s1
        match core.2 with
        | none => core.1
        | some j =>
          List.foldl (fun a c => executeNodeAndChildren env fuel c (some j) a) core.1
            (childIds s1.storage.edges nodeId)

/-- Fuel that is always sufficient for one run (one unit per traversal
level; the global cap bounds the recursion depth by 100). -/
def execFuel : Nat := MAX_TOTAL_EXECUTIONS + 1

/-- The fresh `ExecutionRecord` created at run start. -/
def initRecord (env : Env) (startNodeId : String) (label : String) : ExecutionRecord :=
  { id := env.execId, startNodeId := startNodeId, startNodeLabel := label,
    startedAt := env.startedAt, completedAt := none, status := .running,
    nodesExecuted := 0, results := [] }

/-- Storage after `addExecutionRecord` at run start (identity when the start
node does not exist, in which case the endpoint 404s before this point). -/
def startStorage (env : Env) (st : Storage) (startNodeId : String) : Storage :=
  match assocLookup st.nodes startNodeId with
  | none => st
  | some node => addExecutionRecord st (initRecord env startNodeId node.data.label)

/-- Initial run state: empty counters, empty results, no error. -/
def initRunState (st : Storage) : RunState :=
  { storage := st, executionCount := [], totalExecutions := 0,
    results := [], hasError := false, tick := 0 }

/-- The run state after `await executeNodeAndChildren(startNodeId, undefined)`. -/
def runFlowState (env : Env) (st : Storage) (startNodeId : String) : RunState :=
  executeNodeAndChildren env execFuel startNodeId none (initRunState (startStorage env st startNodeId))

/-- The JSON body of a successful `/api/execute-flow` response. -/
structure FlowResponse where
  success : Bool
  executionId : String
  nodesExecuted : Nat
  results : List ExecutionResult

/-- The final `updateExecutionRecord` call of a run (completedAt, terminal
status, final counts and results). -/
def finalizeRecord (env : Env) (s : RunState) : Storage :=
  let u : RecordUpdates :=
    { completedAt := some env.finishedAt,
      status := some (if s.hasError then .error else .success),
      nodesExecuted := some s.results.length,
      results := some s.results }
  { s.storage with history := setRecord s.storage.history env.execId u }

/-- The `/api/execute-flow` endpoint (src/server/src/index.ts lines
284-469): 404 (`none`) when the start node is missing, otherwise create the
record, run the bounded traversal, finalize the record, and answer with
`success = !hasError` and the accumulated results. -/
def executeFlow (env : Env) (st : Storage) (startNodeId : String) :
    Option (FlowResponse × Storage) :=
  match assocLookup st.nodes startNodeId with
  | none => none
  | some _ =>
    let s := runFlowState env st startNodeId
    some ({ success := !s.hasError, executionId := env.execId,
            nodesExecuted := s.results.length, results := s.results },
          finalizeRecord env s)

/-- Response of the single-node endpoint `/api/execute` (route.ts): 404 when
the node is missing, 500 when an error escapes the handler (a
non-serializable successful return value — the round-trip there sits outside
the try/catch), or the 200 payload `{ success, nodeResult, children }`. -/
inductive SingleNodeResponse where
  | notFound (msg : String) : SingleNodeResponse
  | serverError (msg : String) : SingleNodeResponse
  | ok (success : Bool) (nodeResult : ExecutionResult) (children : List String) : SingleNodeResponse

/-- The single-node execution endpoint (src/app/api/execute/route.ts lines
86-146): read a storage snapshot, run the node's script, serialize the
result, and answer with the node result plus the children ids.  The handler
performs no storage mutation, so it is modelled as returning the storage it
was given. -/
def executeSingleNode (env : Env) (st : Storage) (nodeId : String) (input : Option Json) :
    SingleNodeResponse × Storage :=
  match assocLookup st.nodes nodeId with
  | none => (.notFound ("Node " ++ nodeId ++ " not found"), st)
  | some node =>
    match env.oracle.script 0 node.data.code input with
    | .thr m =>
      (.ok false { nodeId := nodeId, nodeLabel := node.data.label, result := none, error := some m }
        (childIds st.edges nodeId), st)
    | .ret v =>
      match serializeResult v with
      | .error m => (.serverError m, st)
      | .ok r =>
        (.ok true { nodeId := nodeId, nodeLabel := node.data.label, result := r, error := none }
          (childIds st.edges nodeId), st)

/-- The two cap bounds of one run: the global counter never exceeds the
global cap and no per-node counter exceeds the per-node cap. -/
def capsOk (s : RunState) : Prop :=
  s.totalExecutions ≤ MAX_TOTAL_EXECUTIONS ∧
    ∀ n, countOf s.executionCount n ≤ MAX_EXECUTIONS_PER_NODE

/-- A run state with the error flag raised. -/
def setErr (s : RunState) : RunState := { s with hasError := true }

/-- The engine-invariant part of a node: its label, script and execution
mode are read but never written by any engine storage operation. -/
def nodeStatic (n : LiveNode) : String × String × Option ExecMode :=
  (n.data.label, n.data.code, n.data.executionMode)

/-- The state produced by one server-mode node execution whose script run
ended in an error: entry appended with only `error` set, error flag raised,
no record-progress update, no recursion into children. -/
def serverErrState (env : Env) (node : LiveNode) (nodeId : String) (input : Option Json)
    (s : RunState) : RunState :=
  let nr := runScript (env.oracle.script s.tick node.data.code input)
  { bumpCounters s nodeId with
    storage := (serverModeStep env node nodeId input s.storage s.tick).2
    tick := s.tick + 1
    results := s.results ++ [ExecutionResult.mk nodeId node.data.label nr.result nr.error]
    hasError := true }

/-- The state produced by one successful server-mode node execution, before
any recursion into children: entry appended with the serialized result and
no error, record progress written, error flag untouched. -/
def serverOkState (env : Env) (node : LiveNode) (nodeId : String) (input : Option Json)
    (s : RunState) : RunState :=
  let nr := runScript (env.oracle.script s.tick node.data.code input)
  let entry := ExecutionResult.mk nodeId node.data.label nr.result nr.error
  { bumpCounters s nodeId with
    storage := recordProgress (serverModeStep env node nodeId input s.storage s.tick).2
      env.execId (s.results ++ [entry])
    tick := s.tick + 1
    results := s.results ++ [entry] }

/-- The state produced by one caller-mode dispatch that timed out: entry
appended with only the timeout error, error flag raised, no recursion. -/
def clientTimeoutState (env : Env) (node : LiveNode) (nodeId : String) (input : Option Json)
    (s : RunState) : RunState :=
  { bumpCounters s nodeId with
    storage := (clientModeStep env nodeId input s.storage s.tick).2
    tick := s.tick + 1
    results := s.results ++ [ExecutionResult.mk nodeId node.data.label none (some clientTimeoutMsg)]
    hasError := true }

def oracleBoom : Oracle :=
  { script := fun _ _ _ => .thr "boom", client := fun _ => .timeout }

def envBoom : Env :=
  { oracle := oracleBoom, execId := "exec-3", startedAt := "t0", finishedAt := "t1" }

def nodeBoom : LiveNode :=
  { id := "A", data := { label := "Node A", code := "throw new Error('boom')" } }

def stBoom : Storage :=
  { nodes := [("A", nodeBoom)], edges := [], history := [] }

def oracleNum : Oracle :=
  { script := fun _ _ _ => .ret (.num 7), client := fun _ => .timeout }

def envNum : Env :=
  { oracle := oracleNum, execId := "exec-4", startedAt := "t0", finishedAt := "t1" }

def nodeNum : LiveNode :=
  { id := "A", data := { label := "Node A", code := "return 7" } }

def stNum : Storage :=
  { nodes := [("A", nodeNum)], edges := [], history := [] }

def oracleNull : Oracle :=
  { script := fun _ _ _ => .ret .null, client := fun _ => .timeout }

def envNull : Env :=
  { oracle := oracleNull, execId := "exec-5", startedAt := "t0", finishedAt := "t1" }

def nodeNull : LiveNode :=
  { id := "A", data := { label := "Node A", code := "return null" } }

def stNull : Storage :=
  { nodes := [("A", nodeNull)], edges := [LiveEdge.mk "e1" "A" "B"], history := [] }

def nodeClient : LiveNode :=
  { id := "A", data := { label := "Node A", code := "return 1",
                         executionMode := some .client } }

def stClient : Storage :=
  { nodes := [("A", nodeClient)], edges := [], history := [] }

def envClient : Env :=
  { oracle := { script := fun _ _ _ => .ret .null, client := fun _ => .timeout },
    execId := "exec-6", startedAt := "t0", finishedAt := "t1" }

def nodePrev : LiveNode :=
  { id := "A", data := { label := "Node A", code := "throw new Error('boom')",
                         lastResult := some (.num 42) } }

def stPrev : Storage :=
  { nodes := [("A", nodePrev)], edges := [], history := [] }

/-- At most one of the two fields of an entry is set: successful executions
carry no error, failed executions carry no result. -/
def entryOk (e : ExecutionResult) : Prop := e.result = none ∨ e.error = none

/-- Exactly one of the two fields of an entry is set — the literal reading
of the data-model invariant in the spec. -/
def exactlyOne (e : ExecutionResult) : Prop :=
  (e.result ≠ none ∧ e.error = none) ∨ (e.result = none ∧ e.error ≠ none)

def oracleUndef : Oracle :=
  { script := fun _ _ _ => .ret .undef, client := fun _ => .timeout }

def envUndef : Env :=
  { oracle := oracleUndef, execId := "exec-8", startedAt := "t0", finishedAt := "t1" }

def nodeUndef : LiveNode :=
  { id := "A", data := { label := "Node A", code := "return;" } }

def stUndef : Storage :=
  { nodes := [("A", nodeUndef)], edges := [], history := [] }

/-- One expansion step of the reachable set: add every child of a node
already in the set. -/
def reachStep (edges : List LiveEdge) (acc : List String) : List String :=
  (acc ++ acc.flatMap (fun i => childIds edges i)).dedup

def iterReach (edges : List LiveEdge) : Nat → List String → List String
  | 0, acc => acc
  | n + 1, acc => iterReach edges n (reachStep edges acc)

/-- The nodes reachable from `start` via directed edges: closing under
`reachStep` as many times as there are edges reaches the fixpoint on every
graph. -/
def reachableFrom (edges : List LiveEdge) (start : String) : List String :=
  iterReach edges edges.length [start]

/-- A rooted finite tree of node ids: the shape of a graph region in which
every node is reached by exactly one path from the root. -/
inductive GTree where
  | node (id : String) (children : List GTree)

def GTree.rootId : GTree → String
  | .node i _ => i

def GTree.childTrees : GTree → List GTree
  | .node _ cs => cs

mutual

/-- Preorder list of the ids of a tree. -/
def GTree.ids : GTree → List String
  | .node i cs => i :: idsList cs

def idsList : List GTree → List String
  | [] => []
  | t :: ts => t.ids ++ idsList ts

end

/-- Number of nodes of the tree — for a tree-shaped region rooted at the
start node this is exactly the number of nodes reachable from the start. -/
def GTree.size (t : GTree) : Nat := t.ids.length

mutual

/-- All subtrees of a tree, the tree itself included. -/
def GTree.subtrees : GTree → List GTree
  | .node i cs => .node i cs :: subtreesList cs

def subtreesList : List GTree → List GTree
  | [] => []
  | t :: ts => t.subtrees ++ subtreesList ts

end

/-- The storage has a backend-mode node under this id. -/
def serverNodeAt (st : Storage) (i : String) : Prop :=
  ∃ nd, assocLookup st.nodes i = some nd ∧ nd.data.executionMode.getD .server = .server

/-- Every script invocation returns, without throwing, a value that
serializes to a defined non-null JSON value. -/
def productive (o : Oracle) : Prop :=
  ∀ k c i, ∃ j, runScript (o.script k c i) = { result := some j, error := none } ∧
    j.isNull = false

def nodeB7 : LiveNode :=
  { id := "B", data := { label := "Node B", code := "return 7" } }

def nodeC7 : LiveNode :=
  { id := "C", data := { label := "Node C", code := "return 7" } }

def nodeD7 : LiveNode :=
  { id := "D", data := { label := "Node D", code := "return 7" } }

/-- The diamond A→B, A→C, B→D, C→D: an acyclic graph in which D is
reachable by two paths. -/
def stDiamond : Storage :=
  { nodes := [("A", nodeNum), ("B", nodeB7), ("C", nodeC7), ("D", nodeD7)],
    edges := [LiveEdge.mk "e1" "A" "B", LiveEdge.mk "e2" "A" "C",
              LiveEdge.mk "e3" "B" "D", LiveEdge.mk "e4" "C" "D"],
    history := [] }

def tChain : GTree := .node "A" [.node "B" []]

def stChain : Storage :=
  { nodes := [("A", nodeNum), ("B", nodeB7)],
    edges := [LiveEdge.mk "e1" "A" "B"], history := [] }

theorem foldl_preserve {α β : Type} (P : α → Prop) (f : α → β → α)
    (hf : ∀ a b, P a → P (f a b)) :
    ∀ (l : List β) (a : α), P a → P (List.foldl f a l) := by
  intro l
  induction l with
  | nil => intro a ha; exact ha
  | cons c rest ih => intro a ha; exact ih (f a c) (hf a c ha)

theorem foldl_comm_map {α β : Type} (f : α → β → α) (m : α → α)
    (hcomm : ∀ a b, f (m a) b = m (f a b)) :
    ∀ (l : List β) (a : α), List.foldl f (m a) l = m (List.foldl f a l) := by
  intro l
  induction l with
  | nil => intro a; rfl
  | cons c rest ih => intro a; rw [List.foldl_cons, List.foldl_cons, hcomm, ih]

theorem assocLookup_assocSet_self {α : Type} (m : List (String × α)) (k : String) (v : α) :
    assocLookup (assocSet m k v) k = some v := by
  induction m with
  | nil => simp [assocSet, assocLookup]
  | cons p rest ih =>
    by_cases h : p.1 = k
    · simp [assocSet, assocLookup, h]
    · simp [assocSet, assocLookup, h, ih]

theorem assocLookup_assocSet_ne {α : Type} (m : List (String × α)) (k key : String) (v : α)
    (h : k ≠ key) : assocLookup (assocSet m k v) key = assocLookup m key := by
  induction m with
  | nil => simp [assocSet, assocLookup, h]
  | cons p rest ih =>
    by_cases hp : p.1 = k
    · subst hp; simp [assocSet, assocLookup, h, ih]
    · by_cases hq : p.1 = key <;> simp [assocSet, assocLookup, hp, hq, ih, Ne.symm h]

theorem countOf_assocSet_self (m : List (String × Nat)) (k : String) (v : Nat) :
    countOf (assocSet m k v) k = v := by
  simp [countOf, assocLookup_assocSet_self]

theorem countOf_assocSet_ne (m : List (String × Nat)) (k key : String) (v : Nat)
    (h : k ≠ key) : countOf (assocSet m k v) key = countOf m key := by
  simp [countOf, assocLookup_assocSet_ne m k key v h]

theorem mergeRecord_id (r : ExecutionRecord) (u : RecordUpdates) :
    (mergeRecord r u).id = r.id := by
  simp [mergeRecord]

theorem findRec_setRecord_self (h : List ExecutionRecord) (recordId : String) (u : RecordUpdates) :
    findRec (setRecord h recordId u) recordId =
      (findRec h recordId).map (fun r => mergeRecord r u) := by
  induction h with
  | nil => simp [setRecord, findRec]
  | cons r rest ih =>
    by_cases hr : r.id = recordId
    · simp [setRecord, findRec, hr, mergeRecord_id]
    · simp [setRecord, findRec, hr, ih]

theorem updateNodeInStorage_edges (st : Storage) (nodeId : String) (u : NodeUpdates) :
    (updateNodeInStorage st nodeId u).edges = st.edges := by
  unfold updateNodeInStorage
  cases assocLookup st.nodes nodeId <;> rfl

theorem updateNodeInStorage_history (st : Storage) (nodeId : String) (u : NodeUpdates) :
    (updateNodeInStorage st nodeId u).history = st.history := by
  unfold updateNodeInStorage
  cases assocLookup st.nodes nodeId <;> rfl

theorem clientCompletionWrite_edges (st : Storage) (nodeId : String) (out : ScriptOutcome) :
    (clientCompletionWrite st nodeId out).edges = st.edges := by
  unfold clientCompletionWrite
  cases assocLookup st.nodes nodeId <;> rfl

theorem clientCompletionWrite_history (st : Storage) (nodeId : String) (out : ScriptOutcome) :
    (clientCompletionWrite st nodeId out).history = st.history := by
  unfold clientCompletionWrite
  cases assocLookup st.nodes nodeId <;> rfl

theorem recordProgress_nodes (st : Storage) (execId : String) (rs : List ExecutionResult) :
    (recordProgress st execId rs).nodes = st.nodes := rfl

theorem recordProgress_edges (st : Storage) (execId : String) (rs : List ExecutionResult) :
    (recordProgress st execId rs).edges = st.edges := rfl

theorem serverModeStep_edges (env : Env) (node : LiveNode) (nodeId : String)
    (input : Option Json) (st : Storage) (tick : Nat) :
    (serverModeStep env node nodeId input st tick).2.edges = st.edges := by
  unfold serverModeStep
  simp [updateNodeInStorage_edges]

theorem serverModeStep_history (env : Env) (node : LiveNode) (nodeId : String)
    (input : Option Json) (st : Storage) (tick : Nat) :
    (serverModeStep env node nodeId input st tick).2.history = st.history := by
  unfold serverModeStep
  simp [updateNodeInStorage_history]

theorem clientModeStep_edges (env : Env) (nodeId : String)
    (input : Option Json) (st : Storage) (tick : Nat) :
    (clientModeStep env nodeId input st tick).2.edges = st.edges := by
  unfold clientModeStep
  cases env.oracle.client tick <;>
    simp [updateNodeInStorage_edges, clientCompletionWrite_edges]

theorem clientModeStep_history (env : Env) (nodeId : String)
    (input : Option Json) (st : Storage) (tick : Nat) :
    (clientModeStep env nodeId input st tick).2.history = st.history := by
  unfold clientModeStep
  cases env.oracle.client tick <;>
    simp [updateNodeInStorage_history, clientCompletionWrite_history]

theorem nodeStep_edges (env : Env) (node : LiveNode) (nodeId : String)
    (input : Option Json) (st : Storage) (tick : Nat) :
    (nodeStep env node nodeId input st tick).2.edges = st.edges := by
  unfold nodeStep
  split
  · exact clientModeStep_edges env nodeId input st tick
  · exact serverModeStep_edges env node nodeId input st tick

theorem nodeStep_history (env : Env) (node : LiveNode) (nodeId : String)
    (input : Option Json) (st : Storage) (tick : Nat) :
    (nodeStep env node nodeId input st tick).2.history = st.history := by
  unfold nodeStep
  split
  · exact clientModeStep_history env nodeId input st tick
  · exact serverModeStep_history env node nodeId input st tick

theorem execNodeCore_counts (env : Env) (node : LiveNode) (nodeId : String)
    (input : Option Json) (s1 : RunState) :
    (execNodeCore env node nodeId input s1).1.executionCount = s1.executionCount := by
  unfold execNodeCore
  cases h : (nodeStep env node nodeId input s1.storage s1.tick).1.error with
  | some m => simp only [h]
  | none =>
    cases h2 : (nodeStep env node nodeId input s1.storage s1.tick).1.result with
    | none => simp only [h, h2]
    | some j => simp only [h, h2]

theorem execNodeCore_total (env : Env) (node : LiveNode) (nodeId : String)
    (input : Option Json) (s1 : RunState) :
    (execNodeCore env node nodeId input s1).1.totalExecutions = s1.totalExecutions := by
  unfold execNodeCore
  cases h : (nodeStep env node nodeId input s1.storage s1.tick).1.error with
  | some m => simp only [h]
  | none =>
    cases h2 : (nodeStep env node nodeId input s1.storage s1.tick).1.result with
    | none => simp only [h, h2]
    | some j => simp only [h, h2]

theorem execNodeCore_edges (env : Env) (node : LiveNode) (nodeId : String)
    (input : Option Json) (s1 : RunState) :
    (execNodeCore env node nodeId input s1).1.storage.edges = s1.storage.edges := by
  unfold execNodeCore
  cases h : (nodeStep env node nodeId input s1.storage s1.tick).1.error with
  | some m => simp only [h]; exact nodeStep_edges env node nodeId input s1.storage s1.tick
  | none =>
    cases h2 : (nodeStep env node nodeId input s1.storage s1.tick).1.result with
    | none => simp only [h, h2]; simp [recordProgress_edges, nodeStep_edges]
    | some j => simp only [h, h2]; simp [recordProgress_edges, nodeStep_edges]

theorem execNodeCore_results (env : Env) (node : LiveNode) (nodeId : String)
    (input : Option Json) (s1 : RunState) :
    (execNodeCore env node nodeId input s1).1.results =
      s1.results ++ [ExecutionResult.mk nodeId node.data.label
        (nodeStep env node nodeId input s1.storage s1.tick).1.result
        (nodeStep env node nodeId input s1.storage s1.tick).1.error] := by
  unfold execNodeCore
  cases h : (nodeStep env node nodeId input s1.storage s1.tick).1.error with
  | some m => simp only [h]
  | none =>
    cases h2 : (nodeStep env node nodeId input s1.storage s1.tick).1.result with
    | none => simp only [h, h2]
    | some j => simp only [h, h2]

theorem execNodeCore_hasError (env : Env) (node : LiveNode) (nodeId : String)
    (input : Option Json) (s1 : RunState) :
    (execNodeCore env node nodeId input s1).1.hasError =
      (s1.hasError || (nodeStep env node nodeId input s1.storage s1.tick).1.error.isSome) := by
  unfold execNodeCore
  cases h : (nodeStep env node nodeId input s1.storage s1.tick).1.error with
  | some m => simp only [h]; simp
  | none =>
    cases h2 : (nodeStep env node nodeId input s1.storage s1.tick).1.result with
    | none => simp only [h, h2]; simp
    | some j => simp only [h, h2]; simp

theorem findRec_setRecord_isSome (h : List ExecutionRecord) (recordId target : String)
    (u : RecordUpdates) :
    (findRec (setRecord h recordId u) target).isSome = (findRec h target).isSome := by
  induction h with
  | nil => rfl
  | cons r rest ih =>
    simp only [setRecord]
    by_cases hr : r.id = recordId
    · rw [if_pos hr]
      simp only [findRec, mergeRecord_id]
      by_cases ht : r.id = target
      · simp [ht]
      · simp [ht]
    · rw [if_neg hr]
      simp only [findRec]
      by_cases ht : r.id = target
      · simp [ht]
      · simp [ht, ih]

theorem execNodeCore_findRec (env : Env) (node : LiveNode) (nodeId : String)
    (input : Option Json) (s1 : RunState) (target : String) :
    (findRec (execNodeCore env node nodeId input s1).1.storage.history target).isSome =
      (findRec s1.storage.history target).isSome := by
  unfold execNodeCore
  cases h : (nodeStep env node nodeId input s1.storage s1.tick).1.error with
  | some m => simp only [h]; simp [nodeStep_history]
  | none =>
    cases h2 : (nodeStep env node nodeId input s1.storage s1.tick).1.result with
    | none => simp only [h, h2]; simp [recordProgress, findRec_setRecord_isSome, nodeStep_history]
    | some j => simp only [h, h2]; simp [recordProgress, findRec_setRecord_isSome, nodeStep_history]

theorem bumpCounters_storage (s : RunState) (nodeId : String) :
    (bumpCounters s nodeId).storage = s.storage := rfl

theorem bumpCounters_total (s : RunState) (nodeId : String) :
    (bumpCounters s nodeId).totalExecutions = s.totalExecutions + 1 := rfl

theorem execNode_zero (env : Env) (nodeId : String) (input : Option Json) (s : RunState) :
    executeNodeAndChildren env 0 nodeId input s = s := rfl

theorem execNode_succ (env : Env) (fuel : Nat) (nodeId : String) (input : Option Json)
    (s : RunState) :
    executeNodeAndChildren env (fuel + 1) nodeId input s =
      if s.totalExecutions ≥ MAX_TOTAL_EXECUTIONS then s
      else if countOf s.executionCount nodeId ≥ MAX_EXECUTIONS_PER_NODE then s
      else
        match assocLookup (bumpCounters s nodeId).storage.nodes nodeId with
        | none => bumpCounters s nodeId
        | some node =>
          match (execNodeCore env node nodeId input (bumpCounters s nodeId)).2 with
          | none => (execNodeCore env node nodeId input (bumpCounters s nodeId)).1
          | some j =>
            List.foldl (fun a c => executeNodeAndChildren env fuel c (some j) a)
              (execNodeCore env node nodeId input (bumpCounters s nodeId)).1
              (childIds (bumpCounters s nodeId).storage.edges nodeId) := by
  rw [executeNodeAndChildren]

theorem execNode_edges (env : Env) :
    ∀ (fuel : Nat) (nodeId : String) (input : Option Json) (s : RunState),
      (executeNodeAndChildren env fuel nodeId input s).storage.edges = s.storage.edges := by
  intro fuel
  induction fuel with
  | zero => intro nodeId input s; rfl
  | succ fuel ih =>
    intro nodeId input s
    rw [execNode_succ]
    split
    · rfl
    split
    · rfl
    cases hn : assocLookup (bumpCounters s nodeId).storage.nodes nodeId with
    | none => simp only [hn]; rfl
    | some node =>
      simp only [hn]
      have h3 : (execNodeCore env node nodeId input (bumpCounters s nodeId)).1.storage.edges =
          s.storage.edges :=
        execNodeCore_edges env node nodeId input (bumpCounters s nodeId)
      cases hp : (execNodeCore env node nodeId input (bumpCounters s nodeId)).2 with
      | none => exact h3
      | some j =>
        refine foldl_preserve (fun a : RunState => a.storage.edges = s.storage.edges) _ ?_ _ _ h3
        intro a c ha
        rw [ih c (some j) a, ha]

theorem execNode_total_mono (env : Env) :
    ∀ (fuel : Nat) (nodeId : String) (input : Option Json) (s : RunState),
      s.totalExecutions ≤ (executeNodeAndChildren env fuel nodeId input s).totalExecutions := by
  intro fuel
  induction fuel with
  | zero => intro nodeId input s; exact Nat.le_refl _
  | succ fuel ih =>
    intro nodeId input s
    rw [execNode_succ]
    split
    · exact Nat.le_refl _
    split
    · exact Nat.le_refl _
    cases hn : assocLookup (bumpCounters s nodeId).storage.nodes nodeId with
    | none => simp only [hn]; exact Nat.le_succ _
    | some node =>
      simp only [hn]
      have h3 : (execNodeCore env node nodeId input (bumpCounters s nodeId)).1.totalExecutions =
          s.totalExecutions + 1 :=
        execNodeCore_total env node nodeId input (bumpCounters s nodeId)
      cases hp : (execNodeCore env node nodeId input (bumpCounters s nodeId)).2 with
      | none =>
        show s.totalExecutions ≤
          (execNodeCore env node nodeId input (bumpCounters s nodeId)).1.totalExecutions
        omega
      | some j =>
        have hf := foldl_preserve
          (fun a : RunState =>
            (execNodeCore env node nodeId input (bumpCounters s nodeId)).1.totalExecutions
              ≤ a.totalExecutions)
          (fun a c => executeNodeAndChildren env fuel c (some j) a)
          (fun a c ha => Nat.le_trans ha (ih c (some j) a))
          (childIds (bumpCounters s nodeId).storage.edges nodeId) _ (Nat.le_refl _)
        show s.totalExecutions ≤
          (List.foldl (fun a c => executeNodeAndChildren env fuel c (some j) a)
            (execNodeCore env node nodeId input (bumpCounters s nodeId)).1
            (childIds (bumpCounters s nodeId).storage.edges nodeId)).totalExecutions
        omega

theorem execNode_hasError_mono (env : Env) :
    ∀ (fuel : Nat) (nodeId : String) (input : Option Json) (s : RunState),
      s.hasError = true → (executeNodeAndChildren env fuel nodeId input s).hasError = true := by
  intro fuel
  induction fuel with
  | zero => intro nodeId input s h; exact h
  | succ fuel ih =>
    intro nodeId input s h
    rw [execNode_succ]
    split
    · exact h
    split
    · exact h
    cases hn : assocLookup (bumpCounters s nodeId).storage.nodes nodeId with
    | none => simp only [hn]; exact h
    | some node =>
      simp only [hn]
      have h3 : (execNodeCore env node nodeId input (bumpCounters s nodeId)).1.hasError = true := by
        rw [execNodeCore_hasError]
        have hb : (bumpCounters s nodeId).hasError = s.hasError := rfl
        rw [hb, h]
        simp
      cases hp : (execNodeCore env node nodeId input (bumpCounters s nodeId)).2 with
      | none => exact h3
      | some j =>
        exact foldl_preserve (fun a => a.hasError = true) _
          (fun a c ha => ih c (some j) a ha) _ _ h3

theorem execNode_findRec (env : Env) (target : String) :
    ∀ (fuel : Nat) (nodeId : String) (input : Option Json) (s : RunState),
      (findRec (executeNodeAndChildren env fuel nodeId input s).storage.history target).isSome =
        (findRec s.storage.history target).isSome := by
  intro fuel
  induction fuel with
  | zero => intro nodeId input s; rfl
  | succ fuel ih =>
    intro nodeId input s
    rw [execNode_succ]
    split
    · rfl
    split
    · rfl
    cases hn : assocLookup (bumpCounters s nodeId).storage.nodes nodeId with
    | none => simp only [hn]; rfl
    | some node =>
      simp only [hn]
      have h3 := execNodeCore_findRec env node nodeId input (bumpCounters s nodeId) target
      cases hp : (execNodeCore env node nodeId input (bumpCounters s nodeId)).2 with
      | none => exact h3
      | some j =>
        refine foldl_preserve
          (fun a : RunState => (findRec a.storage.history target).isSome =
            (findRec s.storage.history target).isSome) _ ?_ _ _ h3
        intro a c ha
        rw [ih c (some j) a, ha]

theorem execNode_results_mono (env : Env) :
    ∀ (fuel : Nat) (nodeId : String) (input : Option Json) (s : RunState),
      ∃ tail, (executeNodeAndChildren env fuel nodeId input s).results = s.results ++ tail := by
  intro fuel
  induction fuel with
  | zero => intro nodeId input s; exact ⟨[], by simp [execNode_zero]⟩
  | succ fuel ih =>
    intro nodeId input s
    rw [execNode_succ]
    split
    · exact ⟨[], by simp⟩
    split
    · exact ⟨[], by simp⟩
    cases hn : assocLookup (bumpCounters s nodeId).storage.nodes nodeId with
    | none => simp only [hn]; exact ⟨[], by simp [bumpCounters]⟩
    | some node =>
      simp only [hn]
      have h3 : ∃ tail,
          (execNodeCore env node nodeId input (bumpCounters s nodeId)).1.results =
            s.results ++ tail :=
        ⟨_, execNodeCore_results env node nodeId input (bumpCounters s nodeId)⟩
      cases hp : (execNodeCore env node nodeId input (bumpCounters s nodeId)).2 with
      | none => exact h3
      | some j =>
        refine foldl_preserve (fun a : RunState => ∃ tail, a.results = s.results ++ tail)
          _ ?_ _ _ h3
        intro a c ⟨t1, ha⟩
        obtain ⟨t2, h2⟩ := ih c (some j) a
        exact ⟨t1 ++ t2, by rw [h2, ha, List.append_assoc]⟩

theorem execNode_caps (env : Env) :
    ∀ (fuel : Nat) (nodeId : String) (input : Option Json) (s : RunState),
      capsOk s → capsOk (executeNodeAndChildren env fuel nodeId input s) := by
  intro fuel
  induction fuel with
  | zero => intro nodeId input s h; exact h
  | succ fuel ih =>
    intro nodeId input s h
    rw [execNode_succ]
    by_cases hg1 : s.totalExecutions ≥ MAX_TOTAL_EXECUTIONS
    · simp only [if_pos hg1]; exact h
    rw [if_neg hg1]
    by_cases hg2 : countOf s.executionCount nodeId ≥ MAX_EXECUTIONS_PER_NODE
    · simp only [if_pos hg2]; exact h
    rw [if_neg hg2]
    have hb : capsOk (bumpCounters s nodeId) := by
      constructor
      · rw [bumpCounters_total]; omega
      · intro n
        by_cases hn : n = nodeId
        · subst hn
          show countOf (assocSet s.executionCount n (countOf s.executionCount n + 1)) n ≤ _
          rw [countOf_assocSet_self]
          omega
        · show countOf (assocSet s.executionCount nodeId (countOf s.executionCount nodeId + 1)) n
            ≤ _
          rw [countOf_assocSet_ne _ _ _ _ (fun hEq => hn hEq.symm)]
          exact h.2 n
    cases hn : assocLookup (bumpCounters s nodeId).storage.nodes nodeId with
    | none => simp only [hn]; exact hb
    | some node =>
      simp only [hn]
      have hcore : capsOk (execNodeCore env node nodeId input (bumpCounters s nodeId)).1 := by
        constructor
        · rw [execNodeCore_total]; exact hb.1
        · intro n
          rw [execNodeCore_counts]
          exact hb.2 n
      cases hp : (execNodeCore env node nodeId input (bumpCounters s nodeId)).2 with
      | none => exact hcore
      | some j =>
        exact foldl_preserve capsOk _ (fun a c ha => ih c (some j) a ha) _ _ hcore

theorem foldl_congr_inv {α β : Type} (P : α → Prop) (f g : α → β → α)
    (hfP : ∀ a b, P a → P (f a b)) (hfg : ∀ a b, P a → f a b = g a b) :
    ∀ (l : List β) (a : α), P a → List.foldl f a l = List.foldl g a l := by
  intro l
  induction l with
  | nil => intro a _; rfl
  | cons c rest ih =>
    intro a ha
    rw [List.foldl_cons, List.foldl_cons, ← hfg a c ha]
    exact ih (f a c) (hfP a c ha)

/-- Fuel adequacy: any two fuel amounts exceeding the remaining global
budget produce the same traversal — the recursion terminates for cap
reasons, not fuel reasons. -/
theorem execNode_stable (env : Env) :
    ∀ (fuel1 fuel2 : Nat) (nodeId : String) (input : Option Json) (s : RunState),
      MAX_TOTAL_EXECUTIONS - s.totalExecutions < fuel1 →
      MAX_TOTAL_EXECUTIONS - s.totalExecutions < fuel2 →
      executeNodeAndChildren env fuel1 nodeId input s = executeNodeAndChildren env fuel2 nodeId input s := by
  intro fuel1
  induction fuel1 with
  | zero => intro fuel2 nodeId input s h1 h2; omega
  | succ fuel1 ih =>
    intro fuel2 nodeId input s h1 h2
    match fuel2, h2 with
    | fuel2 + 1, h2 =>
      rw [execNode_succ, execNode_succ]
      by_cases hg1 : s.totalExecutions ≥ MAX_TOTAL_EXECUTIONS
      · rw [if_pos hg1, if_pos hg1]
      rw [if_neg hg1, if_neg hg1]
      by_cases hg2 : countOf s.executionCount nodeId ≥ MAX_EXECUTIONS_PER_NODE
      · rw [if_pos hg2, if_pos hg2]
      rw [if_neg hg2, if_neg hg2]
      cases hn : assocLookup (bumpCounters s nodeId).storage.nodes nodeId with
      | none => simp only [hn]
      | some node =>
        simp only [hn]
        have htot : (execNodeCore env node nodeId input (bumpCounters s nodeId)).1.totalExecutions
            = s.totalExecutions + 1 :=
          execNodeCore_total env node nodeId input (bumpCounters s nodeId)
        cases hp : (execNodeCore env node nodeId input (bumpCounters s nodeId)).2 with
        | none => simp only [hp]
        | some j =>
          simp only [hp]
          refine foldl_congr_inv (fun a : RunState => s.totalExecutions + 1 ≤ a.totalExecutions)
            _ _ ?_ ?_ _ _ (by omega)
          · intro a c ha
            exact Nat.le_trans ha (execNode_total_mono env fuel1 c (some j) a)
          · intro a c ha
            exact ih fuel2 c (some j) a (by omega) (by omega)

theorem execNodeCore_setErr (env : Env) (node : LiveNode) (nodeId : String)
    (input : Option Json) (s1 : RunState) :
    execNodeCore env node nodeId input (setErr s1) =
      (setErr (execNodeCore env node nodeId input s1).1,
        (execNodeCore env node nodeId input s1).2) := by
  unfold execNodeCore setErr
  cases h : (nodeStep env node nodeId input s1.storage s1.tick).1.error with
  | some m => simp only [h]
  | none =>
    cases h2 : (nodeStep env node nodeId input s1.storage s1.tick).1.result with
    | none => simp only [h, h2]
    | some j => simp only [h, h2]

/-- The traversal never reads the error flag: raising it beforehand changes
nothing except that the flag stays raised.  This is the formal content of
"a failing branch does not affect sibling branches". -/
theorem setErr_total (s : RunState) : (setErr s).totalExecutions = s.totalExecutions := rfl

theorem setErr_counts (s : RunState) : (setErr s).executionCount = s.executionCount := rfl

theorem setErr_storage (s : RunState) : (setErr s).storage = s.storage := rfl

theorem execNode_setErr (env : Env) :
    ∀ (fuel : Nat) (nodeId : String) (input : Option Json) (s : RunState),
      executeNodeAndChildren env fuel nodeId input (setErr s) = setErr (executeNodeAndChildren env fuel nodeId input s) := by
  intro fuel
  induction fuel with
  | zero => intro nodeId input s; rfl
  | succ fuel ih =>
    intro nodeId input s
    rw [execNode_succ, execNode_succ]
    simp only [setErr_total, setErr_counts]
    by_cases hg1 : s.totalExecutions ≥ MAX_TOTAL_EXECUTIONS
    · rw [if_pos hg1, if_pos hg1]
    rw [if_neg hg1, if_neg hg1]
    by_cases hg2 : countOf s.executionCount nodeId ≥ MAX_EXECUTIONS_PER_NODE
    · rw [if_pos hg2, if_pos hg2]
    rw [if_neg hg2, if_neg hg2]
    have hbump : bumpCounters (setErr s) nodeId = setErr (bumpCounters s nodeId) := rfl
    rw [hbump]
    simp only [setErr_storage]
    cases hn : assocLookup (bumpCounters s nodeId).storage.nodes nodeId with
    | none => simp only [hn]
    | some node =>
      simp only [hn]
      rw [execNodeCore_setErr]
      cases hp : (execNodeCore env node nodeId input (bumpCounters s nodeId)).2 with
      | none => simp only [hp]
      | some j =>
        simp only [hp]
        exact foldl_comm_map _ setErr (fun a c => ih c (some j) a) _ _

theorem applyNodeUpdates_static (u : NodeUpdates) (node : LiveNode) :
    nodeStatic { node with data := applyNodeUpdates u node.data } = nodeStatic node := rfl

theorem updateNodeInStorage_static (st : Storage) (nodeId : String) (u : NodeUpdates) (i : String) :
    (assocLookup (updateNodeInStorage st nodeId u).nodes i).map nodeStatic =
      (assocLookup st.nodes i).map nodeStatic := by
  unfold updateNodeInStorage
  cases hn : assocLookup st.nodes nodeId with
  | none => rfl
  | some node =>
    simp only []
    by_cases hi : nodeId = i
    · subst hi
      rw [assocLookup_assocSet_self, hn]
      rfl
    · rw [assocLookup_assocSet_ne _ _ _ _ hi]

theorem clientCompletionWrite_static (st : Storage) (nodeId : String) (out : ScriptOutcome)
    (i : String) :
    (assocLookup (clientCompletionWrite st nodeId out).nodes i).map nodeStatic =
      (assocLookup st.nodes i).map nodeStatic := by
  unfold clientCompletionWrite
  cases hn : assocLookup st.nodes nodeId with
  | none => rfl
  | some node =>
    simp only []
    by_cases hi : nodeId = i
    · subst hi
      rw [assocLookup_assocSet_self, hn]
      rfl
    · rw [assocLookup_assocSet_ne _ _ _ _ hi]

theorem nodeStep_static (env : Env) (node : LiveNode) (nodeId : String) (input : Option Json)
    (st : Storage) (tick : Nat) (i : String) :
    (assocLookup (nodeStep env node nodeId input st tick).2.nodes i).map nodeStatic =
      (assocLookup st.nodes i).map nodeStatic := by
  unfold nodeStep
  split
  · unfold clientModeStep
    cases env.oracle.client tick with
    | timeout => simp only []; rw [updateNodeInStorage_static, updateNodeInStorage_static]
    | finished out => simp only []; rw [clientCompletionWrite_static, updateNodeInStorage_static]
  · unfold serverModeStep
    simp only []
    rw [updateNodeInStorage_static, updateNodeInStorage_static]

theorem execNodeCore_static (env : Env) (node : LiveNode) (nodeId : String)
    (input : Option Json) (s1 : RunState) (i : String) :
    (assocLookup (execNodeCore env node nodeId input s1).1.storage.nodes i).map nodeStatic =
      (assocLookup s1.storage.nodes i).map nodeStatic := by
  unfold execNodeCore
  cases h : (nodeStep env node nodeId input s1.storage s1.tick).1.error with
  | some m => simp only [h]; rw [nodeStep_static]
  | none =>
    cases h2 : (nodeStep env node nodeId input s1.storage s1.tick).1.result with
    | none =>
      simp only [h, h2]
      show (assocLookup (recordProgress _ _ _).nodes i).map nodeStatic = _
      rw [recordProgress_nodes, nodeStep_static]
    | some j =>
      simp only [h, h2]
      show (assocLookup (recordProgress _ _ _).nodes i).map nodeStatic = _
      rw [recordProgress_nodes, nodeStep_static]

theorem execNode_static (env : Env) :
    ∀ (fuel : Nat) (nodeId : String) (input : Option Json) (s : RunState) (i : String),
      (assocLookup (executeNodeAndChildren env fuel nodeId input s).storage.nodes i).map nodeStatic =
        (assocLookup s.storage.nodes i).map nodeStatic := by
  intro fuel
  induction fuel with
  | zero => intro nodeId input s i; rfl
  | succ fuel ih =>
    intro nodeId input s i
    rw [execNode_succ]
    split
    · rfl
    split
    · rfl
    cases hn : assocLookup (bumpCounters s nodeId).storage.nodes nodeId with
    | none => simp only [hn]; rfl
    | some node =>
      simp only [hn]
      have h3 := execNodeCore_static env node nodeId input (bumpCounters s nodeId) i
      cases hp : (execNodeCore env node nodeId input (bumpCounters s nodeId)).2 with
      | none => exact h3
      | some j =>
        refine foldl_preserve
          (fun a : RunState => (assocLookup a.storage.nodes i).map nodeStatic =
            (assocLookup s.storage.nodes i).map nodeStatic) _ ?_ _ _ h3
        intro a c ha
        rw [ih c (some j) a i, ha]

theorem bumpCounters_tick (s : RunState) (nodeId : String) :
    (bumpCounters s nodeId).tick = s.tick := rfl

theorem bumpCounters_results (s : RunState) (nodeId : String) :
    (bumpCounters s nodeId).results = s.results := rfl

theorem serverModeStep_fst (env : Env) (node : LiveNode) (nodeId : String)
    (input : Option Json) (st : Storage) (tick : Nat) :
    (serverModeStep env node nodeId input st tick).1 =
      runScript (env.oracle.script tick node.data.code input) := rfl

theorem runScript_ret (v : JSValue) :
    runScript (.ret v) =
      (match serializeResult v with
        | .ok r => { result := r, error := none }
        | .error m => { result := none, error := some m }) := rfl

theorem runScript_result_of_error (out : ScriptOutcome) (m : String)
    (h : (runScript out).error = some m) : (runScript out).result = none := by
  cases out with
  | thr m2 => rfl
  | ret v =>
    rw [runScript_ret] at h ⊢
    cases hs : serializeResult v with
    | ok r =>
      rw [hs] at h
      exact absurd h (by simp)
    | error m2 => rfl

theorem execNode_server_error (env : Env) (fuel : Nat) (nodeId : String) (input : Option Json)
    (s : RunState) (node : LiveNode) (m : String)
    (hg1 : s.totalExecutions < MAX_TOTAL_EXECUTIONS)
    (hg2 : countOf s.executionCount nodeId < MAX_EXECUTIONS_PER_NODE)
    (hN : assocLookup s.storage.nodes nodeId = some node)
    (hM : node.data.executionMode.getD .server = .server)
    (hE : (runScript (env.oracle.script s.tick node.data.code input)).error = some m) :
    executeNodeAndChildren env (fuel + 1) nodeId input s = serverErrState env node nodeId input s := by
  have hns : nodeStep env node nodeId input s.storage s.tick =
      serverModeStep env node nodeId input s.storage s.tick := by
    unfold nodeStep
    rw [if_neg (by rw [hM]; intro hcon; exact ExecMode.noConfusion hcon)]
  have hcore : execNodeCore env node nodeId input (bumpCounters s nodeId) =
      (serverErrState env node nodeId input s, none) := by
    simp only [execNodeCore, bumpCounters_storage, bumpCounters_tick, bumpCounters_results,
      hns, serverModeStep_fst, hE, serverErrState]
  rw [execNode_succ]
  rw [if_neg (by omega), if_neg (by omega)]
  have hst : (bumpCounters s nodeId).storage = s.storage := rfl
  rw [hst]
  simp only [hN, hcore]

theorem updateNodeInStorage_lookup_self (st : Storage) (nodeId : String) (u : NodeUpdates)
    (node : LiveNode) (hN : assocLookup st.nodes nodeId = some node) :
    assocLookup (updateNodeInStorage st nodeId u).nodes nodeId =
      some { node with data := applyNodeUpdates u node.data } := by
  unfold updateNodeInStorage
  rw [hN]
  exact assocLookup_assocSet_self _ _ _

theorem execNode_server_undef (env : Env) (fuel : Nat) (nodeId : String) (input : Option Json)
    (s : RunState) (node : LiveNode)
    (hg1 : s.totalExecutions < MAX_TOTAL_EXECUTIONS)
    (hg2 : countOf s.executionCount nodeId < MAX_EXECUTIONS_PER_NODE)
    (hN : assocLookup s.storage.nodes nodeId = some node)
    (hM : node.data.executionMode.getD .server = .server)
    (hE : (runScript (env.oracle.script s.tick node.data.code input)).error = none)
    (hR : (runScript (env.oracle.script s.tick node.data.code input)).result = none) :
    executeNodeAndChildren env (fuel + 1) nodeId input s = serverOkState env node nodeId input s := by
  have hns : nodeStep env node nodeId input s.storage s.tick =
      serverModeStep env node nodeId input s.storage s.tick := by
    unfold nodeStep
    rw [if_neg (by rw [hM]; intro hcon; exact ExecMode.noConfusion hcon)]
  have hcore : execNodeCore env node nodeId input (bumpCounters s nodeId) =
      (serverOkState env node nodeId input s, none) := by
    simp only [execNodeCore, bumpCounters_storage, bumpCounters_tick, bumpCounters_results,
      hns, serverModeStep_fst, hE, hR, serverOkState]
  rw [execNode_succ]
  rw [if_neg (by omega), if_neg (by omega)]
  have hst : (bumpCounters s nodeId).storage = s.storage := rfl
  rw [hst]
  simp only [hN, hcore]

theorem execNode_server_null (env : Env) (fuel : Nat) (nodeId : String) (input : Option Json)
    (s : RunState) (node : LiveNode) (j : Json)
    (hg1 : s.totalExecutions < MAX_TOTAL_EXECUTIONS)
    (hg2 : countOf s.executionCount nodeId < MAX_EXECUTIONS_PER_NODE)
    (hN : assocLookup s.storage.nodes nodeId = some node)
    (hM : node.data.executionMode.getD .server = .server)
    (hE : (runScript (env.oracle.script s.tick node.data.code input)).error = none)
    (hR : (runScript (env.oracle.script s.tick node.data.code input)).result = some j)
    (hJ : j.isNull = true) :
    executeNodeAndChildren env (fuel + 1) nodeId input s = serverOkState env node nodeId input s := by
  have hns : nodeStep env node nodeId input s.storage s.tick =
      serverModeStep env node nodeId input s.storage s.tick := by
    unfold nodeStep
    rw [if_neg (by rw [hM]; intro hcon; exact ExecMode.noConfusion hcon)]
  have hcore : execNodeCore env node nodeId input (bumpCounters s nodeId) =
      (serverOkState env node nodeId input s, none) := by
    simp only [execNodeCore, bumpCounters_storage, bumpCounters_tick, bumpCounters_results,
      hns, serverModeStep_fst, hE, hR, hJ, serverOkState]
    simp
  rw [execNode_succ]
  rw [if_neg (by omega), if_neg (by omega)]
  have hst : (bumpCounters s nodeId).storage = s.storage := rfl
  rw [hst]
  simp only [hN, hcore]

theorem execNode_server_go (env : Env) (fuel : Nat) (nodeId : String) (input : Option Json)
    (s : RunState) (node : LiveNode) (j : Json)
    (hg1 : s.totalExecutions < MAX_TOTAL_EXECUTIONS)
    (hg2 : countOf s.executionCount nodeId < MAX_EXECUTIONS_PER_NODE)
    (hN : assocLookup s.storage.nodes nodeId = some node)
    (hM : node.data.executionMode.getD .server = .server)
    (hE : (runScript (env.oracle.script s.tick node.data.code input)).error = none)
    (hR : (runScript (env.oracle.script s.tick node.data.code input)).result = some j)
    (hJ : j.isNull = false) :
    executeNodeAndChildren env (fuel + 1) nodeId input s =
      List.foldl (fun a c => executeNodeAndChildren env fuel c (some j) a)
        (serverOkState env node nodeId input s) (childIds s.storage.edges nodeId) := by
  have hns : nodeStep env node nodeId input s.storage s.tick =
      serverModeStep env node nodeId input s.storage s.tick := by
    unfold nodeStep
    rw [if_neg (by rw [hM]; intro hcon; exact ExecMode.noConfusion hcon)]
  have hcore : execNodeCore env node nodeId input (bumpCounters s nodeId) =
      (serverOkState env node nodeId input s, some j) := by
    simp only [execNodeCore, bumpCounters_storage, bumpCounters_tick, bumpCounters_results,
      hns, serverModeStep_fst, hE, hR, hJ, serverOkState]
    simp
  rw [execNode_succ]
  rw [if_neg (by omega), if_neg (by omega)]
  have hst : (bumpCounters s nodeId).storage = s.storage := rfl
  rw [hst]
  simp only [hN, hcore]

theorem clientModeStep_timeout_fst (env : Env) (nodeId : String) (input : Option Json)
    (st : Storage) (tick : Nat) (hC : env.oracle.client tick = .timeout) :
    (clientModeStep env nodeId input st tick).1 =
      { result := none, error := some clientTimeoutMsg } := by
  simp [clientModeStep, hC]

theorem execNode_client_timeout (env : Env) (fuel : Nat) (nodeId : String) (input : Option Json)
    (s : RunState) (node : LiveNode)
    (hg1 : s.totalExecutions < MAX_TOTAL_EXECUTIONS)
    (hg2 : countOf s.executionCount nodeId < MAX_EXECUTIONS_PER_NODE)
    (hN : assocLookup s.storage.nodes nodeId = some node)
    (hM : node.data.executionMode.getD .server = .client)
    (hC : env.oracle.client s.tick = .timeout) :
    executeNodeAndChildren env (fuel + 1) nodeId input s = clientTimeoutState env node nodeId input s := by
  have hns : nodeStep env node nodeId input s.storage s.tick =
      clientModeStep env nodeId input s.storage s.tick := by
    unfold nodeStep
    rw [if_pos hM]
  have h1 := clientModeStep_timeout_fst env nodeId input s.storage s.tick hC
  have hcore : execNodeCore env node nodeId input (bumpCounters s nodeId) =
      (clientTimeoutState env node nodeId input s, none) := by
    simp only [execNodeCore, bumpCounters_storage, bumpCounters_tick, bumpCounters_results,
      hns, h1, clientTimeoutState]
  rw [execNode_succ]
  rw [if_neg (by omega), if_neg (by omega)]
  have hst : (bumpCounters s nodeId).storage = s.storage := rfl
  rw [hst]
  simp only [hN, hcore]

theorem findRec_startStorage (env : Env) (st : Storage) (startNodeId : String)
    (startNode : LiveNode) (h : assocLookup st.nodes startNodeId = some startNode) :
    findRec (startStorage env st startNodeId).history env.execId =
      some (initRecord env startNodeId startNode.data.label) := by
  unfold startStorage
  rw [h]
  unfold addExecutionRecord
  show findRec (((initRecord env startNodeId startNode.data.label) :: st.history).take 50)
    env.execId = _
  rw [show (50 : Nat) = 49 + 1 from rfl, List.take_succ_cons]
  unfold findRec
  rw [if_pos (show (initRecord env startNodeId startNode.data.label).id = env.execId from rfl)]

theorem runFlow_record_exists (env : Env) (st : Storage) (startNodeId : String)
    (startNode : LiveNode) (h : assocLookup st.nodes startNodeId = some startNode) :
    ∃ r, findRec (runFlowState env st startNodeId).storage.history env.execId = some r := by
  have h2 := execNode_findRec env env.execId execFuel startNodeId none
    (initRunState (startStorage env st startNodeId))
  have h1 := findRec_startStorage env st startNodeId startNode h
  have h3 : (findRec (initRunState (startStorage env st startNodeId)).storage.history
      env.execId).isSome = true := by
    show (findRec (startStorage env st startNodeId).history env.execId).isSome = true
    rw [h1]
    rfl
  rw [h3] at h2
  unfold runFlowState
  exact Option.isSome_iff_exists.mp h2

theorem executeFlow_eq (env : Env) (st : Storage) (startNodeId : String)
    (startNode : LiveNode) (h : assocLookup st.nodes startNodeId = some startNode) :
    executeFlow env st startNodeId =
      some ({ success := !(runFlowState env st startNodeId).hasError,
              executionId := env.execId,
              nodesExecuted := (runFlowState env st startNodeId).results.length,
              results := (runFlowState env st startNodeId).results },
            finalizeRecord env (runFlowState env st startNodeId)) := by
  unfold executeFlow
  rw [h]

theorem finalizeRecord_find (env : Env) (s : RunState) (r : ExecutionRecord)
    (h : findRec s.storage.history env.execId = some r) :
    findRec (finalizeRecord env s).history env.execId =
      some { r with completedAt := some env.finishedAt,
                    status := if s.hasError then .error else .success,
                    nodesExecuted := s.results.length,
                    results := s.results } := by
  unfold finalizeRecord
  show findRec (setRecord s.storage.history env.execId _) env.execId = _
  rw [findRec_setRecord_self, h]
  simp [mergeRecord]

/-- Claim C1: for every graph, start node, and oracle (sequence of script and
dispatch outcomes), one run of `executeFlow` performs at most 100 node
executions in total, and executes each individual node at most 10 times,
regardless of cycles in the edge list. -/
theorem claim1_cap_invariant (env : Env) (st : Storage) (startNodeId : String) :
    (runFlowState env st startNodeId).totalExecutions ≤ MAX_TOTAL_EXECUTIONS ∧
    ∀ n, countOf (runFlowState env st startNodeId).executionCount n ≤ MAX_EXECUTIONS_PER_NODE := by
  have h0 : capsOk (initRunState (startStorage env st startNodeId)) := by
    constructor
    · exact Nat.zero_le _
    · intro n
      show countOf [] n ≤ _
      exact Nat.zero_le _
  exact execNode_caps env execFuel startNodeId none _ h0

/-- Claim C2: for every graph, including cyclic ones, a run of `executeFlow`
terminates: the traversal's outcome is independent of any fuel at least
`execFuel` (its depth being bounded by the caps), the global counter stays
within the cap, and the run's `ExecutionRecord` is finalized with a terminal
status (`success` or `error`) and a `completedAt` timestamp. -/
theorem claim2_termination (env : Env) (st : Storage) (startNodeId : String)
    (startNode : LiveNode) (h : assocLookup st.nodes startNodeId = some startNode) :
    (∀ fuel, execFuel ≤ fuel →
      executeNodeAndChildren env fuel startNodeId none (initRunState (startStorage env st startNodeId)) =
        runFlowState env st startNodeId) ∧
    (runFlowState env st startNodeId).totalExecutions ≤ MAX_TOTAL_EXECUTIONS ∧
    ∃ resp stFinal, executeFlow env st startNodeId = some (resp, stFinal) ∧
      ∃ rec, findRec stFinal.history env.execId = some rec ∧
        (rec.status = .success ∨ rec.status = .error) ∧
        rec.completedAt = some env.finishedAt := by
  refine ⟨?_, ?_, ?_⟩
  · intro fuel hf
    unfold runFlowState
    refine execNode_stable env fuel execFuel startNodeId none _ ?_ ?_
    · show MAX_TOTAL_EXECUTIONS - 0 < fuel
      have : execFuel = MAX_TOTAL_EXECUTIONS + 1 := rfl
      omega
    · show MAX_TOTAL_EXECUTIONS - 0 < execFuel
      have : execFuel = MAX_TOTAL_EXECUTIONS + 1 := rfl
      omega
  · exact (execNode_caps env execFuel startNodeId none
      (initRunState (startStorage env st startNodeId))
      ⟨Nat.zero_le _, fun n => Nat.zero_le _⟩).1
  · obtain ⟨r, hr⟩ := runFlow_record_exists env st startNodeId startNode h
    refine ⟨_, _, executeFlow_eq env st startNodeId startNode h, ?_⟩
    refine ⟨_, finalizeRecord_find env _ r hr, ?_, rfl⟩
    cases hE : (runFlowState env st startNodeId).hasError
    · left; simp [hE]
    · right; simp [hE]

/-- Claim C3: if a node's script throws during a run, that node's entry carries
only the error (no result), the branch stops with the state
`serverErrState` (exactly one entry appended, no child visited through this
node), the run's error flag is raised and stays raised — the final response
then has `success = false` and the record status `error` — while the
traversal never reads the error flag, so sibling branches execute exactly as
they would have without the failure. -/
theorem claim3_branch_isolation (env : Env) (fuel : Nat) (nodeId : String) (input : Option Json)
    (s : RunState) (node : LiveNode) (m : String)
    (hg1 : s.totalExecutions < MAX_TOTAL_EXECUTIONS)
    (hg2 : countOf s.executionCount nodeId < MAX_EXECUTIONS_PER_NODE)
    (hN : assocLookup s.storage.nodes nodeId = some node)
    (hM : node.data.executionMode.getD .server = .server)
    (hS : env.oracle.script s.tick node.data.code input = .thr m) :
    executeNodeAndChildren env (fuel + 1) nodeId input s = serverErrState env node nodeId input s ∧
    (serverErrState env node nodeId input s).results =
      s.results ++ [ExecutionResult.mk nodeId node.data.label none (some m)] ∧
    (serverErrState env node nodeId input s).hasError = true ∧
    (∀ fuel2 nodeId2 input2 (a : RunState),
      executeNodeAndChildren env fuel2 nodeId2 input2 (setErr a) =
        setErr (executeNodeAndChildren env fuel2 nodeId2 input2 a)) ∧
    (∀ st0 sid sn, assocLookup st0.nodes sid = some sn →
      (runFlowState env st0 sid).hasError = true →
      ∃ resp stF, executeFlow env st0 sid = some (resp, stF) ∧ resp.success = false ∧
        ∃ rec, findRec stF.history env.execId = some rec ∧ rec.status = .error) := by
  have hE : (runScript (env.oracle.script s.tick node.data.code input)).error = some m := by
    rw [hS]
    rfl
  refine ⟨execNode_server_error env fuel nodeId input s node m hg1 hg2 hN hM hE, ?_, rfl, ?_, ?_⟩
  · simp only [serverErrState, hS]
    rfl
  · intro fuel2 nodeId2 input2 a
    exact execNode_setErr env fuel2 nodeId2 input2 a
  · intro st0 sid sn hlk hErr
    obtain ⟨r, hr⟩ := runFlow_record_exists env st0 sid sn hlk
    refine ⟨_, _, executeFlow_eq env st0 sid sn hlk, ?_, ?_⟩
    · simp [hErr]
    · refine ⟨_, finalizeRecord_find env _ r hr, ?_⟩
      simp [hErr]

theorem claim3_witness :
    (initRunState stBoom).totalExecutions < MAX_TOTAL_EXECUTIONS ∧
    countOf (initRunState stBoom).executionCount "A" < MAX_EXECUTIONS_PER_NODE ∧
    assocLookup (initRunState stBoom).storage.nodes "A" = some nodeBoom ∧
    nodeBoom.data.executionMode.getD .server = .server ∧
    envBoom.oracle.script (initRunState stBoom).tick nodeBoom.data.code none = .thr "boom" ∧
    (executeNodeAndChildren envBoom (0 + 1) "A" none (initRunState stBoom) =
        serverErrState envBoom nodeBoom "A" none (initRunState stBoom) ∧
      (serverErrState envBoom nodeBoom "A" none (initRunState stBoom)).results =
        (initRunState stBoom).results ++
          [ExecutionResult.mk "A" nodeBoom.data.label none (some "boom")] ∧
      (serverErrState envBoom nodeBoom "A" none (initRunState stBoom)).hasError = true ∧
      (∀ fuel2 nodeId2 input2 (a : RunState),
        executeNodeAndChildren envBoom fuel2 nodeId2 input2 (setErr a) =
          setErr (executeNodeAndChildren envBoom fuel2 nodeId2 input2 a)) ∧
      (∀ st0 sid sn, assocLookup st0.nodes sid = some sn →
        (runFlowState envBoom st0 sid).hasError = true →
        ∃ resp stF, executeFlow envBoom st0 sid = some (resp, stF) ∧ resp.success = false ∧
          ∃ rec, findRec stF.history envBoom.execId = some rec ∧ rec.status = .error)) :=
  ⟨by decide, by decide, rfl, rfl, rfl,
    claim3_branch_isolation envBoom 0 "A" none (initRunState stBoom) nodeBoom "boom"
      (by decide) (by decide) rfl rfl rfl⟩

theorem serverModeStep_snd (env : Env) (node : LiveNode) (nodeId : String) (input : Option Json)
    (st : Storage) (tick : Nat) :
    (serverModeStep env node nodeId input st tick).2 =
      updateNodeInStorage
        (updateNodeInStorage st nodeId { isExecuting := some true, error := some none })
        nodeId
        { isExecuting := some false,
          lastResult := (runScript (env.oracle.script tick node.data.code input)).result,
          error := some (runScript (env.oracle.script tick node.data.code input)).error } := rfl

theorem serverModeStep_lookup (env : Env) (node : LiveNode) (nodeId : String)
    (input : Option Json) (st : Storage) (tick : Nat)
    (hN : assocLookup st.nodes nodeId = some node) :
    ∃ n2, assocLookup (serverModeStep env node nodeId input st tick).2.nodes nodeId = some n2 ∧
      n2.data.isExecuting = some false ∧
      n2.data.error = (runScript (env.oracle.script tick node.data.code input)).error ∧
      n2.data.lastResult =
        (match (runScript (env.oracle.script tick node.data.code input)).result with
          | some j => some j
          | none => node.data.lastResult) := by
  have hl1 := updateNodeInStorage_lookup_self st nodeId
    { isExecuting := some true, error := some none } node hN
  have hl2 := updateNodeInStorage_lookup_self _ nodeId
    { isExecuting := some false,
      lastResult := (runScript (env.oracle.script tick node.data.code input)).result,
      error := some (runScript (env.oracle.script tick node.data.code input)).error } _ hl1
  rw [serverModeStep_snd, hl2]
  refine ⟨_, rfl, rfl, ?_, ?_⟩
  · cases hErr2 : (runScript (env.oracle.script tick node.data.code input)).error <;>
      simp [applyNodeUpdates, hErr2]
  · cases hRes2 : (runScript (env.oracle.script tick node.data.code input)).result <;>
      simp [applyNodeUpdates, hRes2]

/-- Claim C4: for a backend-mode script execution returning a JSON-representable
value `v` without throwing, the recorded result — the node's entry in the
results list, and the `lastResult` written back to the node — equals the
JSON round-trip of `v` (`serializeResult v = .ok r` models
`JSON.parse(JSON.stringify(v))`, with `undefined` giving no value); when the
script returns `undefined`, no result value is stored: the entry has no
result and the node's previous `lastResult` is left in place.  The same
round-trip governs the single-node endpoint's response. -/
theorem claim4_round_trip (env : Env) (fuel : Nat) (nodeId : String) (input : Option Json)
    (s : RunState) (node : LiveNode) (v : JSValue) (r : Option Json)
    (hg1 : s.totalExecutions < MAX_TOTAL_EXECUTIONS)
    (hg2 : countOf s.executionCount nodeId < MAX_EXECUTIONS_PER_NODE)
    (hN : assocLookup s.storage.nodes nodeId = some node)
    (hM : node.data.executionMode.getD .server = .server)
    (hS : env.oracle.script s.tick node.data.code input = .ret v)
    (hOK : serializeResult v = .ok r) :
    (serverOkState env node nodeId input s).results =
      s.results ++ [ExecutionResult.mk nodeId node.data.label r none] ∧
    (∃ tail, (executeNodeAndChildren env (fuel + 1) nodeId input s).results =
      s.results ++ ExecutionResult.mk nodeId node.data.label r none :: tail) ∧
    (∃ n2, assocLookup (serverOkState env node nodeId input s).storage.nodes nodeId = some n2 ∧
      n2.data.lastResult = (match r with | some j => some j | none => node.data.lastResult) ∧
      n2.data.isExecuting = some false ∧ n2.data.error = none) ∧
    (v = .undef → r = none) ∧
    (∀ st0 nid0 input0 node0, assocLookup st0.nodes nid0 = some node0 →
      env.oracle.script 0 node0.data.code input0 = .ret v →
      executeSingleNode env st0 nid0 input0 =
        (.ok true (ExecutionResult.mk nid0 node0.data.label r none) (childIds st0.edges nid0),
          st0)) := by
  have hnr : runScript (env.oracle.script s.tick node.data.code input) =
      { result := r, error := none } := by
    rw [hS, runScript_ret, hOK]
  have hE : (runScript (env.oracle.script s.tick node.data.code input)).error = none := by
    rw [hnr]
  have hRes : (serverOkState env node nodeId input s).results =
      s.results ++ [ExecutionResult.mk nodeId node.data.label r none] := by
    simp only [serverOkState, hnr]
  refine ⟨hRes, ?_, ?_, ?_, ?_⟩
  · cases hr : r with
    | none =>
      refine ⟨[], ?_⟩
      rw [execNode_server_undef env fuel nodeId input s node hg1 hg2 hN hM hE (by rw [hnr, hr])]
      rw [hRes, hr]
    | some j =>
      cases hj : j.isNull with
      | true =>
        refine ⟨[], ?_⟩
        rw [execNode_server_null env fuel nodeId input s node j hg1 hg2 hN hM hE
          (by rw [hnr, hr]) hj]
        rw [hRes, hr]
      | false =>
        rw [execNode_server_go env fuel nodeId input s node j hg1 hg2 hN hM hE
          (by rw [hnr, hr]) hj]
        have hstart : ∃ tail, (serverOkState env node nodeId input s).results =
            (s.results ++ [ExecutionResult.mk nodeId node.data.label r none]) ++ tail :=
          ⟨[], by rw [hRes]; simp⟩
        have hfold := foldl_preserve
          (fun a : RunState => ∃ tail, a.results =
            (s.results ++ [ExecutionResult.mk nodeId node.data.label r none]) ++ tail)
          (fun a c => executeNodeAndChildren env fuel c (some j) a) ?_
          (childIds s.storage.edges nodeId) _ hstart
        · obtain ⟨tail, ht⟩ := hfold
          refine ⟨tail, ?_⟩
          rw [hr] at ht
          rw [ht]
          simp
        · intro a c ⟨t1, ha⟩
          obtain ⟨t2, h2⟩ := execNode_results_mono env fuel c (some j) a
          exact ⟨t1 ++ t2, by rw [h2, ha, List.append_assoc]⟩
  · obtain ⟨n2, hlook, hie, herr, hlast⟩ :=
      serverModeStep_lookup env node nodeId input s.storage s.tick hN
    refine ⟨n2, ?_, ?_, hie, ?_⟩
    · show assocLookup (serverModeStep env node nodeId input s.storage s.tick).2.nodes nodeId
        = some n2
      exact hlook
    · rw [hlast, hnr]
      cases r <;> rfl
    · rw [herr, hnr]
  · intro hv
    subst hv
    have : (Except.ok none : Except String (Option Json)) = .ok r := hOK
    cases this
    rfl
  · intro st0 nid0 input0 node0 hlk0 hS0
    simp only [executeSingleNode, hlk0, hS0, hOK]

theorem claim4_witness :
    (initRunState stNum).totalExecutions < MAX_TOTAL_EXECUTIONS ∧
    countOf (initRunState stNum).executionCount "A" < MAX_EXECUTIONS_PER_NODE ∧
    assocLookup (initRunState stNum).storage.nodes "A" = some nodeNum ∧
    nodeNum.data.executionMode.getD .server = .server ∧
    envNum.oracle.script (initRunState stNum).tick nodeNum.data.code none = .ret (.num 7) ∧
    serializeResult (.num 7) = .ok (some (.num 7)) ∧
    ((serverOkState envNum nodeNum "A" none (initRunState stNum)).results =
      (initRunState stNum).results ++
        [ExecutionResult.mk "A" nodeNum.data.label (some (.num 7)) none] ∧
    (∃ tail, (executeNodeAndChildren envNum (0 + 1) "A" none (initRunState stNum)).results =
      (initRunState stNum).results ++
        ExecutionResult.mk "A" nodeNum.data.label (some (.num 7)) none :: tail) ∧
    (∃ n2, assocLookup
        (serverOkState envNum nodeNum "A" none (initRunState stNum)).storage.nodes "A" =
          some n2 ∧
      n2.data.lastResult =
        (match (some (.num 7) : Option Json) with
          | some j => some j
          | none => nodeNum.data.lastResult) ∧
      n2.data.isExecuting = some false ∧ n2.data.error = none) ∧
    ((.num 7 : JSValue) = .undef → (some (.num 7) : Option Json) = none) ∧
    (∀ st0 nid0 input0 node0, assocLookup st0.nodes nid0 = some node0 →
      envNum.oracle.script 0 node0.data.code input0 = .ret (.num 7) →
      executeSingleNode envNum st0 nid0 input0 =
        (.ok true (ExecutionResult.mk nid0 node0.data.label (some (.num 7)) none)
          (childIds st0.edges nid0), st0))) :=
  ⟨by decide, by decide, rfl, rfl, rfl, rfl,
    claim4_round_trip envNum 0 "A" none (initRunState stNum) nodeNum (.num 7) (some (.num 7))
      (by decide) (by decide) rfl rfl rfl rfl⟩

/-- Claim C5: for every visited backend-mode node, when the script's round-tripped
result is `undefined` or `null` (and no error occurred), the traversal stops
the branch — the state is exactly `serverOkState`, which appends one entry
and visits no child; when the result is a defined, non-null value `j`, the
traversal recurses into the node's children sequentially, each child
receiving `some j` as its input. -/
theorem claim5_propagation_guard (env : Env) (fuel : Nat) (nodeId : String) (input : Option Json)
    (s : RunState) (node : LiveNode) (v : JSValue)
    (hg1 : s.totalExecutions < MAX_TOTAL_EXECUTIONS)
    (hg2 : countOf s.executionCount nodeId < MAX_EXECUTIONS_PER_NODE)
    (hN : assocLookup s.storage.nodes nodeId = some node)
    (hM : node.data.executionMode.getD .server = .server)
    (hS : env.oracle.script s.tick node.data.code input = .ret v) :
    (serializeResult v = .ok none →
      executeNodeAndChildren env (fuel + 1) nodeId input s = serverOkState env node nodeId input s) ∧
    (serializeResult v = .ok (some .null) →
      executeNodeAndChildren env (fuel + 1) nodeId input s = serverOkState env node nodeId input s) ∧
    (∀ j, serializeResult v = .ok (some j) → j.isNull = false →
      executeNodeAndChildren env (fuel + 1) nodeId input s =
        List.foldl (fun a c => executeNodeAndChildren env fuel c (some j) a)
          (serverOkState env node nodeId input s) (childIds s.storage.edges nodeId)) ∧
    (serverOkState env node nodeId input s).results.length = s.results.length + 1 := by
  refine ⟨?_, ?_, ?_, ?_⟩
  · intro hOK
    have hnr : runScript (env.oracle.script s.tick node.data.code input) =
        { result := none, error := none } := by
      rw [hS, runScript_ret, hOK]
    exact execNode_server_undef env fuel nodeId input s node hg1 hg2 hN hM
      (by rw [hnr]) (by rw [hnr])
  · intro hOK
    have hnr : runScript (env.oracle.script s.tick node.data.code input) =
        { result := some .null, error := none } := by
      rw [hS, runScript_ret, hOK]
    exact execNode_server_null env fuel nodeId input s node .null hg1 hg2 hN hM
      (by rw [hnr]) (by rw [hnr]) rfl
  · intro j hOK hj
    have hnr : runScript (env.oracle.script s.tick node.data.code input) =
        { result := some j, error := none } := by
      rw [hS, runScript_ret, hOK]
    exact execNode_server_go env fuel nodeId input s node j hg1 hg2 hN hM
      (by rw [hnr]) (by rw [hnr]) hj
  · simp [serverOkState]

theorem claim5_witness :
    (initRunState stNull).totalExecutions < MAX_TOTAL_EXECUTIONS ∧
    countOf (initRunState stNull).executionCount "A" < MAX_EXECUTIONS_PER_NODE ∧
    assocLookup (initRunState stNull).storage.nodes "A" = some nodeNull ∧
    nodeNull.data.executionMode.getD .server = .server ∧
    envNull.oracle.script (initRunState stNull).tick nodeNull.data.code none = .ret .null ∧
    ((serializeResult .null = .ok none →
      executeNodeAndChildren envNull (0 + 1) "A" none (initRunState stNull) =
        serverOkState envNull nodeNull "A" none (initRunState stNull)) ∧
    (serializeResult .null = .ok (some .null) →
      executeNodeAndChildren envNull (0 + 1) "A" none (initRunState stNull) =
        serverOkState envNull nodeNull "A" none (initRunState stNull)) ∧
    (∀ j, serializeResult .null = .ok (some j) → j.isNull = false →
      executeNodeAndChildren envNull (0 + 1) "A" none (initRunState stNull) =
        List.foldl (fun a c => executeNodeAndChildren envNull 0 c (some j) a)
          (serverOkState envNull nodeNull "A" none (initRunState stNull))
          (childIds (initRunState stNull).storage.edges "A")) ∧
    (serverOkState envNull nodeNull "A" none (initRunState stNull)).results.length =
      (initRunState stNull).results.length + 1) :=
  ⟨by decide, by decide, rfl, rfl, rfl,
    claim5_propagation_guard envNull 0 "A" none (initRunState stNull) nodeNull .null
      (by decide) (by decide) rfl rfl rfl⟩

theorem clientModeStep_timeout_lookup (env : Env) (nodeId : String) (input : Option Json)
    (st : Storage) (tick : Nat) (node : LiveNode)
    (hN : assocLookup st.nodes nodeId = some node) (hC : env.oracle.client tick = .timeout) :
    ∃ n2, assocLookup (clientModeStep env nodeId input st tick).2.nodes nodeId = some n2 ∧
      n2.data.isExecuting = some false ∧ n2.data.pendingClientExecution = some false ∧
      n2.data.error = some clientTimeoutMsg := by
  have hsnd : (clientModeStep env nodeId input st tick).2 =
      updateNodeInStorage
        (updateNodeInStorage st nodeId
          { isExecuting := some true, error := some none,
            pendingClientExecution := some true,
            clientInput := some (some (input.getD .null)) })
        nodeId
        { isExecuting := some false, pendingClientExecution := some false,
          error := some (some clientTimeoutMsg) } := by
    simp [clientModeStep, hC]
  have hl1 := updateNodeInStorage_lookup_self st nodeId
    { isExecuting := some true, error := some none,
      pendingClientExecution := some true,
      clientInput := some (some (input.getD .null)) } node hN
  have hl2 := updateNodeInStorage_lookup_self _ nodeId
    { isExecuting := some false, pendingClientExecution := some false,
      error := some (some clientTimeoutMsg) } _ hl1
  rw [hsnd, hl2]
  exact ⟨_, rfl, rfl, rfl, rfl⟩

/-- Claim C6: for a caller-mode (client-mode) node whose pending marker is never
cleared within the wait window (60000 ms polled every 500 ms, abstracted by
the dispatch oracle reporting a timeout), the dispatcher produces an error
entry whose message is the timeout message, writes the node's final state
with `isExecuting = false` and `pendingClientExecution = false`, and the
timeout then behaves like a script error: the branch stops with exactly one
entry appended and the run's error flag set. -/
theorem claim6_client_timeout (env : Env) (fuel : Nat) (nodeId : String) (input : Option Json)
    (s : RunState) (node : LiveNode)
    (hg1 : s.totalExecutions < MAX_TOTAL_EXECUTIONS)
    (hg2 : countOf s.executionCount nodeId < MAX_EXECUTIONS_PER_NODE)
    (hN : assocLookup s.storage.nodes nodeId = some node)
    (hM : node.data.executionMode.getD .server = .client)
    (hC : env.oracle.client s.tick = .timeout) :
    executeNodeAndChildren env (fuel + 1) nodeId input s = clientTimeoutState env node nodeId input s ∧
    (clientTimeoutState env node nodeId input s).results =
      s.results ++ [ExecutionResult.mk nodeId node.data.label none (some clientTimeoutMsg)] ∧
    (clientTimeoutState env node nodeId input s).hasError = true ∧
    (∃ n2, assocLookup
        (clientTimeoutState env node nodeId input s).storage.nodes nodeId = some n2 ∧
      n2.data.isExecuting = some false ∧ n2.data.pendingClientExecution = some false ∧
      n2.data.error = some clientTimeoutMsg) ∧
    clientTimeoutMsg =
      "Client execution timeout - no browser connected or execution took too long" ∧
    maxWaitTime = 60000 ∧ pollInterval = 500 := by
  refine ⟨execNode_client_timeout env fuel nodeId input s node hg1 hg2 hN hM hC,
    rfl, rfl, ?_, rfl, rfl, rfl⟩
  exact clientModeStep_timeout_lookup env nodeId input s.storage s.tick node hN hC

theorem claim6_witness :
    (initRunState stClient).totalExecutions < MAX_TOTAL_EXECUTIONS ∧
    countOf (initRunState stClient).executionCount "A" < MAX_EXECUTIONS_PER_NODE ∧
    assocLookup (initRunState stClient).storage.nodes "A" = some nodeClient ∧
    nodeClient.data.executionMode.getD .server = .client ∧
    envClient.oracle.client (initRunState stClient).tick = .timeout ∧
    (executeNodeAndChildren envClient (0 + 1) "A" none (initRunState stClient) =
        clientTimeoutState envClient nodeClient "A" none (initRunState stClient) ∧
      (clientTimeoutState envClient nodeClient "A" none (initRunState stClient)).results =
        (initRunState stClient).results ++
          [ExecutionResult.mk "A" nodeClient.data.label none (some clientTimeoutMsg)] ∧
      (clientTimeoutState envClient nodeClient "A" none (initRunState stClient)).hasError = true ∧
      (∃ n2, assocLookup
          (clientTimeoutState envClient nodeClient "A" none
            (initRunState stClient)).storage.nodes "A" = some n2 ∧
        n2.data.isExecuting = some false ∧ n2.data.pendingClientExecution = some false ∧
        n2.data.error = some clientTimeoutMsg) ∧
      clientTimeoutMsg =
        "Client execution timeout - no browser connected or execution took too long" ∧
      maxWaitTime = 60000 ∧ pollInterval = 500) :=
  ⟨by decide, by decide, rfl, rfl, rfl,
    claim6_client_timeout envClient 0 "A" none (initRunState stClient) nodeClient
      (by decide) (by decide) rfl rfl rfl⟩

/-- Claim C9: when a backend-mode node's script throws, the post-execution
write-back sets `isExecuting = false` and the error message but leaves the
node's `lastResult` unchanged (the previous run's stored result survives),
because `updateNodeInStorage` skips any update field whose value is
`undefined` — stated generally in the second conjunct. -/
theorem claim9_lastResult_frame (env : Env) (fuel : Nat) (nodeId : String) (input : Option Json)
    (s : RunState) (node : LiveNode) (m : String)
    (hg1 : s.totalExecutions < MAX_TOTAL_EXECUTIONS)
    (hg2 : countOf s.executionCount nodeId < MAX_EXECUTIONS_PER_NODE)
    (hN : assocLookup s.storage.nodes nodeId = some node)
    (hM : node.data.executionMode.getD .server = .server)
    (hS : env.oracle.script s.tick node.data.code input = .thr m) :
    (∃ n2, assocLookup
        (executeNodeAndChildren env (fuel + 1) nodeId input s).storage.nodes nodeId = some n2 ∧
      n2.data.isExecuting = some false ∧ n2.data.error = some m ∧
      n2.data.lastResult = node.data.lastResult) ∧
    (∀ st0 nid0 u node0, u.lastResult = none → assocLookup st0.nodes nid0 = some node0 →
      ∃ n3, assocLookup (updateNodeInStorage st0 nid0 u).nodes nid0 = some n3 ∧
        n3.data.lastResult = node0.data.lastResult) := by
  have hE : (runScript (env.oracle.script s.tick node.data.code input)).error = some m := by
    rw [hS]
    rfl
  constructor
  · rw [execNode_server_error env fuel nodeId input s node m hg1 hg2 hN hM hE]
    obtain ⟨n2, hlook, hie, herr, hlast⟩ :=
      serverModeStep_lookup env node nodeId input s.storage s.tick hN
    refine ⟨n2, ?_, hie, ?_, ?_⟩
    · show assocLookup (serverModeStep env node nodeId input s.storage s.tick).2.nodes nodeId
        = some n2
      exact hlook
    · rw [herr, hE]
    · rw [hlast, runScript_result_of_error _ _ hE]
  · intro st0 nid0 u node0 hu hlk0
    refine ⟨_, updateNodeInStorage_lookup_self st0 nid0 u node0 hlk0, ?_⟩
    simp [applyNodeUpdates, hu]

theorem claim9_witness :
    (initRunState stPrev).totalExecutions < MAX_TOTAL_EXECUTIONS ∧
    countOf (initRunState stPrev).executionCount "A" < MAX_EXECUTIONS_PER_NODE ∧
    assocLookup (initRunState stPrev).storage.nodes "A" = some nodePrev ∧
    nodePrev.data.executionMode.getD .server = .server ∧
    envBoom.oracle.script (initRunState stPrev).tick nodePrev.data.code none = .thr "boom" ∧
    ((∃ n2, assocLookup
        (executeNodeAndChildren envBoom (0 + 1) "A" none (initRunState stPrev)).storage.nodes "A" = some n2 ∧
      n2.data.isExecuting = some false ∧ n2.data.error = some "boom" ∧
      n2.data.lastResult = nodePrev.data.lastResult) ∧
    (∀ st0 nid0 u node0, u.lastResult = none → assocLookup st0.nodes nid0 = some node0 →
      ∃ n3, assocLookup (updateNodeInStorage st0 nid0 u).nodes nid0 = some n3 ∧
        n3.data.lastResult = node0.data.lastResult)) :=
  ⟨by decide, by decide, rfl, rfl, rfl,
    claim9_lastResult_frame envBoom 0 "A" none (initRunState stPrev) nodePrev "boom"
      (by decide) (by decide) rfl rfl rfl⟩

/-- Claim C10: the single-node execution endpoint never writes to the shared
document store: for every request it returns the storage it read unchanged —
node map, edge list and execution history are untouched (in particular
neither `isExecuting` nor `lastResult` is set) — and only computes the
serialized script result and the children list. -/
theorem claim10_single_node_frame (env : Env) (st : Storage) (nodeId : String)
    (input : Option Json) :
    (executeSingleNode env st nodeId input).2 = st ∧
    (executeSingleNode env st nodeId input).2.nodes = st.nodes ∧
    (executeSingleNode env st nodeId input).2.edges = st.edges ∧
    (executeSingleNode env st nodeId input).2.history = st.history ∧
    (∀ node, assocLookup st.nodes nodeId = some node →
      ∀ m, env.oracle.script 0 node.data.code input = .thr m →
        executeSingleNode env st nodeId input =
          (.ok false (ExecutionResult.mk nodeId node.data.label none (some m))
            (childIds st.edges nodeId), st)) := by
  have hbase : (executeSingleNode env st nodeId input).2 = st := by
    unfold executeSingleNode
    cases hl : assocLookup st.nodes nodeId with
    | none => rfl
    | some node =>
      simp only []
      cases hs : env.oracle.script 0 node.data.code input with
      | thr m => rfl
      | ret v =>
        simp only []
        cases hr : serializeResult v with
        | ok r => rfl
        | error m => rfl
  refine ⟨hbase, by rw [hbase], by rw [hbase], by rw [hbase], ?_⟩
  intro node hlk m hs
  simp only [executeSingleNode, hlk, hs]

theorem claim10_witness :
    (executeSingleNode envNum stNum "A" none).2 = stNum ∧
    (executeSingleNode envNum stNum "A" none).2.nodes = stNum.nodes ∧
    (executeSingleNode envNum stNum "A" none).2.edges = stNum.edges ∧
    (executeSingleNode envNum stNum "A" none).2.history = stNum.history ∧
    (∀ node, assocLookup stNum.nodes "A" = some node →
      ∀ m, envNum.oracle.script 0 node.data.code none = .thr m →
        executeSingleNode envNum stNum "A" none =
          (.ok false (ExecutionResult.mk "A" node.data.label none (some m))
            (childIds stNum.edges "A"), stNum)) :=
  claim10_single_node_frame envNum stNum "A" none

theorem runScript_exclusive (out : ScriptOutcome) :
    (runScript out).result = none ∨ (runScript out).error = none := by
  cases out with
  | thr m => left; rfl
  | ret v =>
    rw [runScript_ret]
    cases hs : serializeResult v with
    | ok r => right; rfl
    | error m => left; rfl

theorem nodeStep_exclusive (env : Env) (node : LiveNode) (nodeId : String)
    (input : Option Json) (st : Storage) (tick : Nat) :
    (nodeStep env node nodeId input st tick).1.result = none ∨
      (nodeStep env node nodeId input st tick).1.error = none := by
  unfold nodeStep
  split
  · unfold clientModeStep
    cases hc : env.oracle.client tick with
    | timeout => left; rfl
    | finished out =>
      simp only []
      unfold clientCompletionWrite
      cases hlk : assocLookup
          (updateNodeInStorage st nodeId
            { isExecuting := some true, error := some none,
              pendingClientExecution := some true,
              clientInput := some (some (input.getD .null)) }).nodes nodeId with
      | none => simp only [hlk]; left; trivial
      | some n =>
        simp only [hlk]
        rw [assocLookup_assocSet_self]
        exact runScript_exclusive out
  · rw [serverModeStep_fst]
    exact runScript_exclusive (env.oracle.script tick node.data.code input)

theorem execNode_entryOk (env : Env) :
    ∀ (fuel : Nat) (nodeId : String) (input : Option Json) (s : RunState),
      (∀ e ∈ s.results, entryOk e) →
      ∀ e ∈ (executeNodeAndChildren env fuel nodeId input s).results, entryOk e := by
  intro fuel
  induction fuel with
  | zero => intro nodeId input s h; exact h
  | succ fuel ih =>
    intro nodeId input s h
    rw [execNode_succ]
    split
    · exact h
    split
    · exact h
    cases hn : assocLookup (bumpCounters s nodeId).storage.nodes nodeId with
    | none => simp only [hn]; exact h
    | some node =>
      simp only [hn]
      have h3 : ∀ e ∈ (execNodeCore env node nodeId input (bumpCounters s nodeId)).1.results,
          entryOk e := by
        rw [execNodeCore_results]
        intro e he
        rcases List.mem_append.mp he with h1 | h2
        · exact h (e) h1
        · rcases List.mem_singleton.mp h2 with rfl
          rcases nodeStep_exclusive env node nodeId input (bumpCounters s nodeId).storage
            (bumpCounters s nodeId).tick with hr | hl
          · left; exact hr
          · right; exact hl
      cases hp : (execNodeCore env node nodeId input (bumpCounters s nodeId)).2 with
      | none => exact h3
      | some j =>
        refine foldl_preserve (fun a : RunState => ∀ e ∈ a.results, entryOk e) _ ?_ _ _ h3
        intro a c ha
        exact ih c (some j) a ha

/-- Claim C8, amended: in every entry of a run's results list at most one of
`result`/`error` is set — an entry from a successful execution carries no
error and an entry from a failed execution carries no result — including
entries from the caller-mode completion path, which copies `lastResult` and
`error` written back by the equivalent caller-side executor; an entry from a
successful execution that produced no value carries neither field. -/
theorem claim8_entry_exclusive (env : Env) (st : Storage) (startNodeId : String) :
    (∀ e ∈ (runFlowState env st startNodeId).results, entryOk e) ∧
    (∀ out, (runScript out).result = none ∨ (runScript out).error = none) := by
  constructor
  · refine execNode_entryOk env execFuel startNodeId none _ ?_
    intro e he
    exact absurd he (List.not_mem_nil e)
  · exact runScript_exclusive

theorem claim8_witness :
    (∀ e ∈ (runFlowState envNum stNum "A").results, entryOk e) ∧
    (runFlowState envNum stNum "A").results =
      [ExecutionResult.mk "A" "Node A" (some (.num 7)) none] ∧
    entryOk (ExecutionResult.mk "A" "Node A" (some (.num 7)) none) :=
  ⟨(claim8_entry_exclusive envNum stNum "A").1, rfl,
    (claim8_entry_exclusive envNum stNum "A").1 _
      (by rw [show (runFlowState envNum stNum "A").results =
          [ExecutionResult.mk "A" "Node A" (some (.num 7)) none] from rfl]
          exact List.mem_singleton_self _)⟩

/-- Counterexample to claim C8: a script that returns `undefined` yields an entry
with neither `result` nor `error` set, so "exactly one of the two fields is
meaningful" fails on this run. -/
theorem claim8_counterexample :
    (runFlowState envUndef stUndef "A").results =
      [ExecutionResult.mk "A" "Node A" none none] ∧
    ¬ exactlyOne (ExecutionResult.mk "A" "Node A" none none) := by
  constructor
  · rfl
  · intro h
    rcases h with ⟨h1, _⟩ | ⟨_, h2⟩
    · exact h1 rfl
    · exact h2 rfl

theorem serverNodeAt_transfer (st1 st2 : Storage) (i : String)
    (h : (assocLookup st2.nodes i).map nodeStatic = (assocLookup st1.nodes i).map nodeStatic) :
    serverNodeAt st1 i → serverNodeAt st2 i := by
  rintro ⟨nd, hnd, hm⟩
  rw [hnd] at h
  cases hlk : assocLookup st2.nodes i with
  | none => rw [hlk] at h; exact absurd h (by simp)
  | some nd2 =>
    rw [hlk] at h
    refine ⟨nd2, hlk, ?_⟩
    have hstat : nodeStatic nd2 = nodeStatic nd := by
      simpa using h
    have : nd2.data.executionMode = nd.data.executionMode :=
      congrArg (fun p => p.2.2) hstat
    rw [this]
    exact hm

theorem serverOkState_total (env : Env) (node : LiveNode) (nodeId : String)
    (input : Option Json) (s : RunState) :
    (serverOkState env node nodeId input s).totalExecutions = s.totalExecutions + 1 := rfl

theorem serverOkState_hasError (env : Env) (node : LiveNode) (nodeId : String)
    (input : Option Json) (s : RunState) :
    (serverOkState env node nodeId input s).hasError = s.hasError := rfl

theorem serverOkState_counts (env : Env) (node : LiveNode) (nodeId : String)
    (input : Option Json) (s : RunState) :
    (serverOkState env node nodeId input s).executionCount =
      assocSet s.executionCount nodeId (countOf s.executionCount nodeId + 1) := rfl

theorem serverOkState_results_len (env : Env) (node : LiveNode) (nodeId : String)
    (input : Option Json) (s : RunState) :
    (serverOkState env node nodeId input s).results.length = s.results.length + 1 := by
  simp [serverOkState]

theorem serverOkState_edges (env : Env) (node : LiveNode) (nodeId : String)
    (input : Option Json) (s : RunState) :
    (serverOkState env node nodeId input s).storage.edges = s.storage.edges := by
  show (recordProgress (serverModeStep env node nodeId input s.storage s.tick).2 _ _).edges
    = s.storage.edges
  rw [recordProgress_edges, serverModeStep_edges]

theorem serverOkState_static (env : Env) (node : LiveNode) (nodeId : String)
    (input : Option Json) (s : RunState) (i : String) :
    (assocLookup (serverOkState env node nodeId input s).storage.nodes i).map nodeStatic =
      (assocLookup s.storage.nodes i).map nodeStatic := by
  show (assocLookup (recordProgress (serverModeStep env node nodeId input s.storage s.tick).2
    _ _).nodes i).map nodeStatic = _
  rw [recordProgress_nodes, serverModeStep_snd, updateNodeInStorage_static,
    updateNodeInStorage_static]

theorem GTree.ids_node (i : String) (cs : List GTree) :
    (GTree.node i cs).ids = i :: idsList cs := rfl

theorem idsList_cons (t : GTree) (ts : List GTree) :
    idsList (t :: ts) = t.ids ++ idsList ts := rfl

theorem GTree.size_pos (t : GTree) : 1 ≤ t.size := by
  cases t with
  | node i cs => simp [GTree.size, GTree.ids_node]

theorem GTree.self_mem_subtrees (t : GTree) : t ∈ t.subtrees := by
  cases t with
  | node i cs =>
    show GTree.node i cs ∈ GTree.node i cs :: subtreesList cs
    exact List.mem_cons_self _ _

theorem subtreesList_mem (c : GTree) (cs : List GTree) (u : GTree)
    (hc : c ∈ cs) (hu : u ∈ c.subtrees) : u ∈ subtreesList cs := by
  induction cs with
  | nil => cases hc
  | cons d rest ih =>
    rw [show subtreesList (d :: rest) = d.subtrees ++ subtreesList rest from rfl]
    rcases List.mem_cons.mp hc with rfl | hc2
    · exact List.mem_append.mpr (Or.inl hu)
    · exact List.mem_append.mpr (Or.inr (ih hc2))

theorem mem_idsList (c : GTree) (cs : List GTree) (i : String)
    (hc : c ∈ cs) (hi : i ∈ c.ids) : i ∈ idsList cs := by
  induction cs with
  | nil => cases hc
  | cons d rest ih =>
    rw [idsList_cons]
    rcases List.mem_cons.mp hc with rfl | hc2
    · exact List.mem_append.mpr (Or.inl hi)
    · exact List.mem_append.mpr (Or.inr (ih hc2))

theorem idsList_len_bound (c : GTree) (cs : List GTree) (hc : c ∈ cs) :
    c.ids.length ≤ (idsList cs).length := by
  induction cs with
  | nil => cases hc
  | cons d rest ih =>
    rw [idsList_cons, List.length_append]
    rcases List.mem_cons.mp hc with rfl | hc2
    · omega
    · have := ih hc2
      omega

theorem execNode_tree (env : Env) (hprod : productive env.oracle) :
    ∀ (N : Nat) (t : GTree) (fuel : Nat) (input : Option Json) (s : RunState),
      t.size ≤ N →
      MAX_TOTAL_EXECUTIONS - s.totalExecutions < fuel →
      s.totalExecutions + t.size ≤ MAX_TOTAL_EXECUTIONS →
      t.ids.Nodup →
      (∀ i ∈ t.ids, countOf s.executionCount i = 0) →
      (∀ u ∈ t.subtrees, childIds s.storage.edges u.rootId = u.childTrees.map GTree.rootId) →
      (∀ i ∈ t.ids, serverNodeAt s.storage i) →
      (executeNodeAndChildren env fuel t.rootId input s).results.length = s.results.length + t.size ∧
      (executeNodeAndChildren env fuel t.rootId input s).totalExecutions = s.totalExecutions + t.size ∧
      (executeNodeAndChildren env fuel t.rootId input s).hasError = s.hasError ∧
      (∀ i, i ∉ t.ids →
        countOf (executeNodeAndChildren env fuel t.rootId input s).executionCount i =
          countOf s.executionCount i) := by
  intro N
  induction N with
  | zero =>
    intro t fuel input s hsize _ _ _ _ _ _
    have := GTree.size_pos t
    omega
  | succ N ihN =>
    intro t fuel input s hsize hfuel hcap hnd hcount hadj hsrv
    obtain ⟨rootId, cs⟩ := t
    have hsz : (GTree.node rootId cs).size = 1 + (idsList cs).length := by
      simp [GTree.size, GTree.ids_node]
      omega
    cases fuel with
    | zero => omega
    | succ f =>
      have hpos := GTree.size_pos (GTree.node rootId cs)
      have hg1 : s.totalExecutions < MAX_TOTAL_EXECUTIONS := by omega
      have hrootmem : rootId ∈ (GTree.node rootId cs).ids := by
        rw [GTree.ids_node]
        exact List.mem_cons_self _ _
      have h10 : MAX_EXECUTIONS_PER_NODE = 10 := rfl
      have hg2 : countOf s.executionCount rootId < MAX_EXECUTIONS_PER_NODE := by
        rw [hcount rootId hrootmem]
        omega
      obtain ⟨node, hN, hM⟩ := hsrv rootId hrootmem
      obtain ⟨j, hnr, hj⟩ := hprod s.tick node.data.code input
      have hgo := execNode_server_go env f rootId input s node j hg1 hg2 hN hM
        (by rw [hnr]) (by rw [hnr]) hj
      have hch : childIds s.storage.edges rootId = cs.map GTree.rootId := by
        have := hadj _ (GTree.self_mem_subtrees (GTree.node rootId cs))
        simpa [GTree.rootId, GTree.childTrees] using this
      have hndc := List.nodup_cons.mp (by rw [GTree.ids_node] at hnd; exact hnd)
      have key : ∀ (cs2 : List GTree) (a : RunState),
          MAX_TOTAL_EXECUTIONS - a.totalExecutions < f →
          a.totalExecutions + (idsList cs2).length ≤ MAX_TOTAL_EXECUTIONS →
          (idsList cs2).Nodup →
          (∀ i ∈ idsList cs2, countOf a.executionCount i = 0) →
          (∀ u ∈ subtreesList cs2,
            childIds a.storage.edges u.rootId = u.childTrees.map GTree.rootId) →
          (∀ i ∈ idsList cs2, serverNodeAt a.storage i) →
          (∀ c ∈ cs2, c.size ≤ N) →
          (List.foldl (fun b c => executeNodeAndChildren env f c (some j) b) a
            (cs2.map GTree.rootId)).results.length =
              a.results.length + (idsList cs2).length ∧
          (List.foldl (fun b c => executeNodeAndChildren env f c (some j) b) a
            (cs2.map GTree.rootId)).totalExecutions =
              a.totalExecutions + (idsList cs2).length ∧
          (List.foldl (fun b c => executeNodeAndChildren env f c (some j) b) a
            (cs2.map GTree.rootId)).hasError = a.hasError ∧
          (∀ i, i ∉ idsList cs2 →
            countOf (List.foldl (fun b c => executeNodeAndChildren env f c (some j) b) a
              (cs2.map GTree.rootId)).executionCount i = countOf a.executionCount i) := by
        intro cs2
        induction cs2 with
        | nil =>
          intro a _ _ _ _ _ _ _
          refine ⟨?_, ?_, rfl, ?_⟩
          · show a.results.length = a.results.length + (idsList []).length
            rfl
          · show a.totalExecutions = a.totalExecutions + (idsList []).length
            rfl
          · intro i _
            rfl
        | cons c rest ihl =>
          intro a hfa hca hna hcnta hadja hsrva hsza
          have hlen : (idsList (c :: rest)).length = c.ids.length + (idsList rest).length := by
            rw [idsList_cons, List.length_append]
          have hcmem : c ∈ c :: rest := List.mem_cons_self _ _
          have hcsz : c.size = c.ids.length := rfl
          have hcap_c : a.totalExecutions + c.size ≤ MAX_TOTAL_EXECUTIONS := by
            rw [hcsz]; omega
          have hnd_c : c.ids.Nodup := by
            rw [idsList_cons] at hna
            exact hna.of_append_left
          have hdisj : ∀ i ∈ c.ids, i ∉ idsList rest := by
            rw [idsList_cons] at hna
            intro i hi
            exact (List.disjoint_of_nodup_append hna) hi
          have hcount_c : ∀ i ∈ c.ids, countOf a.executionCount i = 0 := fun i hi =>
            hcnta i (by rw [idsList_cons]; exact List.mem_append.mpr (Or.inl hi))
          have hadj_c : ∀ u ∈ c.subtrees,
              childIds a.storage.edges u.rootId = u.childTrees.map GTree.rootId := fun u hu =>
            hadja u (subtreesList_mem c (c :: rest) u hcmem hu)
          have hsrv_c : ∀ i ∈ c.ids, serverNodeAt a.storage i := fun i hi =>
            hsrva i (by rw [idsList_cons]; exact List.mem_append.mpr (Or.inl hi))
          obtain ⟨hr1, hr2, hr3, hr4⟩ :=
            ihN c f (some j) a (hsza c hcmem) hfa hcap_c hnd_c hcount_c hadj_c hsrv_c
          rw [List.map_cons, List.foldl_cons]
          have hb1 : MAX_TOTAL_EXECUTIONS -
              (executeNodeAndChildren env f c.rootId (some j) a).totalExecutions < f := by
            have := GTree.size_pos c
            omega
          have hb2 : (executeNodeAndChildren env f c.rootId (some j) a).totalExecutions +
              (idsList rest).length ≤ MAX_TOTAL_EXECUTIONS := by
            rw [hr2, hcsz] at *
            omega
          have hb3 : (idsList rest).Nodup := by
            rw [idsList_cons] at hna
            exact hna.of_append_right
          have hb4 : ∀ i ∈ idsList rest,
              countOf (executeNodeAndChildren env f c.rootId (some j) a).executionCount i = 0 := by
            intro i hi
            have hnotc : i ∉ c.ids := fun hic => hdisj i hic hi
            rw [hr4 i hnotc]
            exact hcnta i (by rw [idsList_cons]; exact List.mem_append.mpr (Or.inr hi))
          have hedges := execNode_edges env f c.rootId (some j) a
          have hb5 : ∀ u ∈ subtreesList rest,
              childIds (executeNodeAndChildren env f c.rootId (some j) a).storage.edges u.rootId =
                u.childTrees.map GTree.rootId := by
            intro u hu
            rw [hedges]
            refine hadja u ?_
            rw [show subtreesList (c :: rest) = c.subtrees ++ subtreesList rest from rfl]
            exact List.mem_append.mpr (Or.inr hu)
          have hb6 : ∀ i ∈ idsList rest,
              serverNodeAt (executeNodeAndChildren env f c.rootId (some j) a).storage i := by
            intro i hi
            exact serverNodeAt_transfer a.storage _ i
              (execNode_static env f c.rootId (some j) a i)
              (hsrva i (by rw [idsList_cons]; exact List.mem_append.mpr (Or.inr hi)))
          have hb7 : ∀ d ∈ rest, d.size ≤ N := fun d hd =>
            hsza d (List.mem_cons.mpr (Or.inr hd))
          obtain ⟨hq1, hq2, hq3, hq4⟩ :=
            ihl (executeNodeAndChildren env f c.rootId (some j) a) hb1 hb2 hb3 hb4 hb5 hb6 hb7
          refine ⟨?_, ?_, ?_, ?_⟩
          · rw [hq1, hr1, hlen, hcsz]
            omega
          · rw [hq2, hr2, hlen, hcsz]
            omega
          · rw [hq3, hr3]
          · intro i hi
            have hic : i ∉ c.ids := fun h2 => hi (by
              rw [idsList_cons]
              exact List.mem_append.mpr (Or.inl h2))
            have hir : i ∉ idsList rest := fun h2 => hi (by
              rw [idsList_cons]
              exact List.mem_append.mpr (Or.inr h2))
            rw [hq4 i hir, hr4 i hic]
      have k1 : MAX_TOTAL_EXECUTIONS -
          (serverOkState env node rootId input s).totalExecutions < f := by
        rw [serverOkState_total]
        omega
      have k2 : (serverOkState env node rootId input s).totalExecutions +
          (idsList cs).length ≤ MAX_TOTAL_EXECUTIONS := by
        rw [serverOkState_total]
        omega
      have k4 : ∀ i ∈ idsList cs,
          countOf (serverOkState env node rootId input s).executionCount i = 0 := by
        intro i hi
        rw [serverOkState_counts]
        have hne : rootId ≠ i := fun h2 => hndc.1 (h2 ▸ hi)
        rw [countOf_assocSet_ne _ _ _ _ hne]
        exact hcount i (by rw [GTree.ids_node]; exact List.mem_cons.mpr (Or.inr hi))
      have k5 : ∀ u ∈ subtreesList cs,
          childIds (serverOkState env node rootId input s).storage.edges u.rootId =
            u.childTrees.map GTree.rootId := by
        intro u hu
        rw [serverOkState_edges]
        refine hadj u ?_
        rw [show (GTree.node rootId cs).subtrees
          = GTree.node rootId cs :: subtreesList cs from rfl]
        exact List.mem_cons.mpr (Or.inr hu)
      have k6 : ∀ i ∈ idsList cs,
          serverNodeAt (serverOkState env node rootId input s).storage i := by
        intro i hi
        exact serverNodeAt_transfer s.storage _ i
          (serverOkState_static env node rootId input s i)
          (hsrv i (by rw [GTree.ids_node]; exact List.mem_cons.mpr (Or.inr hi)))
      have k7 : ∀ c ∈ cs, c.size ≤ N := by
        intro c hc
        have := idsList_len_bound c cs hc
        have hcsz : c.size = c.ids.length := rfl
        omega
      obtain ⟨hk1, hk2, hk3, hk4⟩ :=
        key cs (serverOkState env node rootId input s) k1 k2 hndc.2 k4 k5 k6 k7
      have hroot2 : (GTree.node rootId cs).rootId = rootId := rfl
      rw [hroot2, hgo, hch]
      refine ⟨?_, ?_, ?_, ?_⟩
      · rw [hk1, serverOkState_results_len, hsz]
        omega
      · rw [hk2, serverOkState_total, hsz]
        omega
      · rw [hk3, serverOkState_hasError]
      · intro i hi
        have hine : i ≠ rootId := by
          intro h2
          apply hi
          rw [GTree.ids_node, h2]
          exact List.mem_cons_self _ _
        have hic : i ∉ idsList cs := by
          intro h2
          apply hi
          rw [GTree.ids_node]
          exact List.mem_cons.mpr (Or.inr h2)
        rw [hk4 i hic, serverOkState_counts,
          countOf_assocSet_ne _ _ _ _ (fun h2 => hine h2.symm)]

theorem startStorage_nodes (env : Env) (st : Storage) (startNodeId : String) :
    (startStorage env st startNodeId).nodes = st.nodes := by
  unfold startStorage
  cases assocLookup st.nodes startNodeId <;> rfl

theorem startStorage_edges (env : Env) (st : Storage) (startNodeId : String) :
    (startStorage env st startNodeId).edges = st.edges := by
  unfold startStorage
  cases assocLookup st.nodes startNodeId <;> rfl

/-- Claim C7, amended: for a graph whose region reachable from the start node is
a tree `t` rooted at the start node (each reachable node has exactly one
path from the start: the adjacency of every subtree root is exactly its
child list and the ids are distinct), with every reachable node in backend
mode, every script returning a defined non-null JSON value, and at most 100
reachable nodes, the run completes with `success = true` and
`nodesExecuted` equal to `t.size` — the number of nodes reachable from the
start node. -/
theorem claim7_tree_completeness (env : Env) (st : Storage) (startNodeId : String) (t : GTree)
    (hprod : productive env.oracle)
    (hroot : t.rootId = startNodeId)
    (hnd : t.ids.Nodup)
    (hsize : t.size ≤ MAX_TOTAL_EXECUTIONS)
    (hadj : ∀ u ∈ t.subtrees, childIds st.edges u.rootId = u.childTrees.map GTree.rootId)
    (hsrv : ∀ i ∈ t.ids, serverNodeAt st i) :
    (runFlowState env st startNodeId).results.length = t.size ∧
    (runFlowState env st startNodeId).hasError = false ∧
    ∃ resp stF, executeFlow env st startNodeId = some (resp, stF) ∧
      resp.nodesExecuted = t.size ∧ resp.success = true := by
  subst hroot
  have hrootmem : t.rootId ∈ t.ids := by
    cases t with
    | node i cs =>
      rw [GTree.ids_node]
      exact List.mem_cons_self _ _
  obtain ⟨sn, hsn, _⟩ := hsrv t.rootId hrootmem
  have hfe : execFuel = MAX_TOTAL_EXECUTIONS + 1 := rfl
  have htree := execNode_tree env hprod t.size t execFuel none
    (initRunState (startStorage env st t.rootId))
    (Nat.le_refl _)
    (by show MAX_TOTAL_EXECUTIONS - 0 < execFuel; omega)
    (by show 0 + t.size ≤ MAX_TOTAL_EXECUTIONS; omega)
    hnd
    (fun i _ => rfl)
    (by
      intro u hu
      show childIds (startStorage env st t.rootId).edges u.rootId = _
      rw [startStorage_edges]
      exact hadj u hu)
    (by
      intro i hi
      obtain ⟨nd, hnd2, hm2⟩ := hsrv i hi
      refine ⟨nd, ?_, hm2⟩
      show assocLookup (startStorage env st t.rootId).nodes i = some nd
      rw [startStorage_nodes]
      exact hnd2)
  obtain ⟨ht1, ht2, ht3, ht4⟩ := htree
  have hr1 : (runFlowState env st t.rootId).results.length = t.size := by
    unfold runFlowState
    rw [ht1]
    simp [initRunState]
  have hr2 : (runFlowState env st t.rootId).hasError = false := by
    unfold runFlowState
    rw [ht3]
    rfl
  refine ⟨hr1, hr2, _, _, executeFlow_eq env st t.rootId sn hsn, hr1, ?_⟩
  rw [hr2]
  rfl

/-- Counterexample to claim C7: on the diamond DAG with no errors the traversal, not
being deduplicated, executes D twice — `nodesExecuted = 5` while only 4
nodes are reachable from the start node. -/
theorem claim7_counterexample :
    (runFlowState envNum stDiamond "A").results.length = 5 ∧
    (runFlowState envNum stDiamond "A").hasError = false ∧
    (reachableFrom stDiamond.edges "A").length = 4 ∧
    (∃ resp stF, executeFlow envNum stDiamond "A" = some (resp, stF) ∧
      resp.nodesExecuted = 5 ∧ resp.success = true) ∧
    (5 : Nat) ≠ 4 := by
  refine ⟨rfl, rfl, by decide, ⟨_, _, rfl, rfl, rfl⟩, by decide⟩

theorem claim7_witness :
    productive envNum.oracle ∧
    tChain.rootId = "A" ∧
    tChain.ids.Nodup ∧
    tChain.size ≤ MAX_TOTAL_EXECUTIONS ∧
    (∀ u ∈ tChain.subtrees,
      childIds stChain.edges u.rootId = u.childTrees.map GTree.rootId) ∧
    (∀ i ∈ tChain.ids, serverNodeAt stChain i) ∧
    ((runFlowState envNum stChain "A").results.length = tChain.size ∧
    (runFlowState envNum stChain "A").hasError = false ∧
    ∃ resp stF, executeFlow envNum stChain "A" = some (resp, stF) ∧
      resp.nodesExecuted = tChain.size ∧ resp.success = true) := by
  have hprod : productive envNum.oracle := fun k c i => ⟨.num 7, rfl, rfl⟩
  have hsrv : ∀ i ∈ tChain.ids, serverNodeAt stChain i := by
    intro i hi
    have hmem : i = "A" ∨ i = "B" := by
      simpa [tChain, GTree.ids, idsList] using hi
    rcases hmem with rfl | rfl
    · exact ⟨nodeNum, rfl, rfl⟩
    · exact ⟨nodeB7, rfl, rfl⟩
  exact ⟨hprod, rfl, by decide, by decide, by decide, hsrv,
    claim7_tree_completeness envNum stChain "A" tChain hprod rfl (by decide) (by decide)
      (by decide) hsrv⟩

theorem claim2_witness :
    assocLookup stNum.nodes "A" = some nodeNum ∧
    ((∀ fuel, execFuel ≤ fuel →
      executeNodeAndChildren envNum fuel "A" none (initRunState (startStorage envNum stNum "A")) =
        runFlowState envNum stNum "A") ∧
    (runFlowState envNum stNum "A").totalExecutions ≤ MAX_TOTAL_EXECUTIONS ∧
    ∃ resp stFinal, executeFlow envNum stNum "A" = some (resp, stFinal) ∧
      ∃ rec, findRec stFinal.history envNum.execId = some rec ∧
        (rec.status = .success ∨ rec.status = .error) ∧
        rec.completedAt = some envNum.finishedAt) :=
  ⟨rfl, claim2_termination envNum stNum "A" nodeNum rfl⟩
